import Mathlib

/-!
# CriticalMoments property registry: a shallow embedding

Source files embedded here:

* `go/appcore/property_registry.go`  (the property registry)
* `go/cmcore/data_model/trigger_model.go`  (triggers)

Conventions of the embedding.

* A Go `string` is a Lean `String`; `range` over a string visits its runes, here the
  characters of `String.data`.
* A Go `map[string]T` is a `GoMap T`: a list of entries whose keys are pairwise distinct.
  The order of the list is not observable through `get?`; where the source ranges over a
  map, the order of the visit is an explicit argument (any permutation of the entries).
* A Go `error` is an `Option String` (`none` is `nil`), and a method that mutates its
  receiver returns the error together with the registry it leaves behind.
* The `fmt.Println` warning of `addProviderForKey` writes to standard output only; it
  changes neither the registry nor the returned error and is not part of the state.
* A call that may panic returns an `Outcome`: the values it returns, or the value it panics
  with. The condition parser, the `expr` compiler and virtual machine and the JSON decoder
  are libraries outside the embedded files; the methods that call them take them as
  arguments.
-/

set_option autoImplicit false

namespace reflect

/-- The Go `reflect.Kind` enumeration, in the order of the standard library. -/
inductive Kind where
  | Invalid | Bool | Int | Int8 | Int16 | Int32 | Int64
  | Uint | Uint8 | Uint16 | Uint32 | Uint64 | Uintptr
  | Float32 | Float64 | Complex64 | Complex128
  | Array | Chan | Func | Interface | Map | Pointer | Slice
  | String | Struct | UnsafePointer
  deriving DecidableEq, Repr

end reflect

/-- A Go `interface{}` value as the registry sees it: `nil`, one of the four kinds of value a
property can hold, or a value of some other dynamic type (of which only the kind and an
identity are kept). A `float64` is kept as its bit pattern. -/
inductive GoValue where
  | nil
  | bool (b : Bool)
  | int (i : Int)
  | float64 (bits : Nat)
  | string (s : String)
  | other (k : reflect.Kind) (id : Nat)
  deriving DecidableEq, Repr

/-- `reflect.TypeOf(v).Kind()`. A nil interface has no type; the source never asks for the
kind of `nil` on a path that returns (`registerClientProperty` rejects `nil` first), and
the embedding gives it `Invalid`. -/
def GoValue.Kind : GoValue → reflect.Kind
  | .nil => reflect.Kind.Invalid
  | .bool _ => reflect.Kind.Bool
  | .int _ => reflect.Kind.Int
  | .float64 _ => reflect.Kind.Float64
  | .string _ => reflect.Kind.String
  | .other k _ => k

/-- A Go `error`: `none` is `nil`, `some msg` an error carrying `msg`. -/
abbrev error := Option String

/-! ## Go maps with string keys -/

namespace GoMap

/-- The map index expression `m[k]` with the comma-ok result, on a list of entries. -/
def lookup {β : Type} : List (String × β) → String → Option β
  | [], _ => none
  | (k', v) :: m, k => if k' = k then some v else lookup m k

/-- The map assignment `m[k] = v` on a list of entries: replace the entry of `k`, or add one. -/
def assign {β : Type} : List (String × β) → String → β → List (String × β)
  | [], k, v => [(k, v)]
  | (k', v') :: m, k, v => if k' = k then (k, v) :: m else (k', v') :: assign m k v

end GoMap

/-- A Go `map[string]β`: entries with pairwise distinct keys. -/
structure GoMap (β : Type) where
  entries : List (String × β)
  nodup : (entries.map Prod.fst).Nodup

namespace GoMap

variable {β : Type}

/-- The keys of the map. -/
def keys (m : GoMap β) : List String := m.entries.map Prod.fst

/-- The empty map, `make(map[string]β)`. -/
def empty : GoMap β := ⟨[], List.nodup_nil⟩

/-- The index expression `v, ok := m[k]`. -/
def get? (m : GoMap β) (k : String) : Option β := lookup m.entries k

/-- The assignment `m[k] = v`. The keys stay pairwise distinct: `assign` overwrites the entry
of a key that is present and appends an entry for one that is absent. -/
def set (m : GoMap β) (k : String) (v : β) : GoMap β :=
  ⟨assign m.entries k v, by
    have key : ∀ l : List (String × β), (assign l k v).map Prod.fst =
        if k ∈ l.map Prod.fst then l.map Prod.fst else l.map Prod.fst ++ [k] := by
      intro l
      induction l with
      | nil => simp [assign]
      | cons hd tl ih =>
        obtain ⟨k', v'⟩ := hd
        by_cases h : k' = k
        · subst h; simp [assign]
        · have h' : ¬ k = k' := fun e => h e.symm
          simp only [assign, h, if_false, List.map_cons, List.mem_cons, h', false_or, ih]
          split <;> simp
    rw [key]
    split
    · exact m.nodup
    · rename_i hk
      rw [List.nodup_append]
      refine ⟨m.nodup, List.nodup_singleton k, ?_⟩
      intro a ha hb
      rw [List.mem_singleton] at hb
      exact hk (hb ▸ ha)⟩

end GoMap

/-! ## Calls into libraries -/

/-- How a call ends: it returns `a`, or it panics with the value `r`, a non-nil value that
is kept as the text the verb `%v` prints. -/
inductive Outcome (α : Type) where
  | returns (a : α)
  | panics (r : String)

/-- A Go function of type `func(params ...any) (interface{}, error)`. -/
abbrev GoFunc := List GoValue → GoValue × error

/-- An `expr.Option` as the registry builds them: `expr.Function(name, fn, types...)` or
`expr.Env(env)`. -/
inductive exprOption where
  | Function (name : String) (fn : GoFunc) (types : List GoValue)
  | Env (env : GoMap GoValue)

/-! ## Property providers -/

/-- The `propertyProvider` interface at one instant: what `Kind()` and `Value()` return. -/
structure propertyProvider where
  Kind : reflect.Kind
  Value : GoValue
  deriving DecidableEq, Repr

/-- Modelled from the spec: `staticPropertyProvider` and its methods, which are declared
outside the embedded files. The spec's data model makes a provider either a static value or
callback-backed, with a declared kind fixed at registration and a current-value accessor; a
static provider holds `value`, its accessor returns it and its declared kind is the kind of
that value. -/
def staticPropertyProvider (value : GoValue) : propertyProvider :=
  { Kind := value.Kind, Value := value }

/-! ## The registry -/

/-- The constant `CustomPropertyPrefix`. -/
def CustomPropertyPrefix : String := "custom_"

/-- The `propertyRegistry` struct: the providers and the two tables of reserved names. The
tables come from `datamodel.BuiltInPropertyTypes()` and `datamodel.WellKnownPropertyTypes()`,
whose contents are outside the embedded files, so they are arbitrary maps here
(`reservedTablesOk` states what the spec says of them); so are the static helper functions
and constants of `datamodel`. -/
structure propertyRegistry where
  providers : GoMap propertyProvider
  builtInPropertyTypes : GoMap reflect.Kind
  wellKnownPropertyTypes : GoMap reflect.Kind
  dynamicFunctionNames : List String
  dynamicFunctionOps : List exprOption
  mapFunctions : GoMap GoValue
  mapConstants : GoMap GoValue

/-- The constructor `newPropertyRegistry`. Its arguments are what the four functions of
`datamodel` return: `BuiltInPropertyTypes()`, `WellKnownPropertyTypes()`,
`StaticConditionHelperFunctions()` and `StaticConditionConstantProperties()`. -/
def newPropertyRegistry (builtIn wellKnown : GoMap reflect.Kind)
    (staticFunctions staticConstants : GoMap GoValue) : propertyRegistry :=
  { providers := GoMap.empty
    builtInPropertyTypes := builtIn
    wellKnownPropertyTypes := wellKnown
    dynamicFunctionNames := []
    dynamicFunctionOps := []
    mapFunctions := staticFunctions
    mapConstants := staticConstants }

/-- The method `expectedTypeForKey`. -/
def expectedTypeForKey (pr : propertyRegistry) (key : String) : reflect.Kind :=
  match pr.builtInPropertyTypes.get? key with
  | some expectedType => expectedType
  | none =>
    match pr.wellKnownPropertyTypes.get? key with
    | some expectedType => expectedType
    | none => reflect.Kind.Invalid

/-- The test applied to each rune by `validPropertyName`. -/
def validPropertyRune (c : Char) : Bool :=
  (c ≥ 'a' && c ≤ 'z') || (c ≥ '0' && c ≤ '9') || c == '_' || (c ≥ 'A' && c ≤ 'Z')

/-- The `range` loop of `validPropertyName`: `false` at the first rune that fails the test. -/
def validPropertyNameLoop : List Char → Bool
  | [] => true
  | c :: cs => if !validPropertyRune c then false else validPropertyNameLoop cs

/-- The function `validPropertyName`. -/
def validPropertyName (name : String) : Bool :=
  if name = "" ∨ name = CustomPropertyPrefix then false
  else validPropertyNameLoop name.data

/-- The call `strings.HasPrefix(s, prefix)`. -/
def strings.HasPrefix (s pfx : String) : Bool := pfx.data.isPrefixOf s.data

/-- The slice `validTypes` of `addProviderForKey`. -/
def validTypes : List reflect.Kind :=
  [reflect.Kind.Bool, reflect.Kind.String, reflect.Kind.Int, reflect.Kind.Float64]

/-- The method `addProviderForKey`: the error it returns and the registry it leaves. Only the
last statement, `pr.providers[key] = pp`, writes to the registry. -/
def addProviderForKey (pr : propertyRegistry) (key : String) (pp : propertyProvider) :
    error × propertyRegistry :=
  if !validPropertyName key then
    (some ("invalid property name: " ++ key), pr)
  else
    let isCustom := strings.HasPrefix key CustomPropertyPrefix
    let typeCheck : error :=
      if !isCustom then
        let expectedType := expectedTypeForKey pr key
        if expectedType = reflect.Kind.Invalid then
          some "invalid property registered. Properties must be custom, built in or well known"
        else if pp.Kind ≠ expectedType then
          some ("Property registered of wrong type (does not match expected type): " ++ key)
        else none
      else none
    match typeCheck with
    | some err => (some err, pr)
    | none =>
      if !validTypes.contains pp.Kind then
        (some ("Invalid property type for key: " ++ key), pr)
      else
        (none, { pr with providers := pr.providers.set key pp })

/-- The method `registerStaticProperty`. -/
def registerStaticProperty (p : propertyRegistry) (key : String) (value : GoValue) :
    error × propertyRegistry :=
  addProviderForKey p key (staticPropertyProvider value)

/-- The method `registerClientProperty`. -/
def registerClientProperty (p : propertyRegistry) (key : String) (value : GoValue) :
    error × propertyRegistry :=
  let isBuiltIn := (p.builtInPropertyTypes.get? key).isSome
  if isBuiltIn then
    (some ("client cannot register reserved built in property: " ++ key), p)
  else if value = GoValue.nil then
    (some ("client cannot register nil property: " ++ key), p)
  else
    let wellKnownType := (p.wellKnownPropertyTypes.get? key).getD reflect.Kind.Invalid
    let isWellKnown := (p.wellKnownPropertyTypes.get? key).isSome
    if isWellKnown && value.Kind ≠ wellKnownType then
      (some ("property registered of wrong type (does not match expected type): " ++ key), p)
    else
      let updatedKey := if !isWellKnown then CustomPropertyPrefix ++ key else key
      registerStaticProperty p updatedKey value

/-- The package variable `errPropertyNotFound`. -/
def errPropertyNotFound : String := "property not found"

/-- The method `propertyValue`: the value and the error it returns. -/
def propertyValue (p : propertyRegistry) (key : String) : GoValue × error :=
  match p.providers.get? key with
  | some v => (v.Value, none)
  | none =>
    match p.providers.get? (CustomPropertyPrefix ++ key) with
    | some v => (v.Value, none)
    | none => (GoValue.nil, some errPropertyNotFound)

/-- The method `String` of `reflect.Kind` in the Go standard library (the constructor of the
kind of strings already has that name here). -/
def reflect.kindString : reflect.Kind → String
  | .Invalid => "invalid" | .Bool => "bool" | .Int => "int" | .Int8 => "int8"
  | .Int16 => "int16" | .Int32 => "int32" | .Int64 => "int64" | .Uint => "uint"
  | .Uint8 => "uint8" | .Uint16 => "uint16" | .Uint32 => "uint32" | .Uint64 => "uint64"
  | .Uintptr => "uintptr" | .Float32 => "float32" | .Float64 => "float64"
  | .Complex64 => "complex64" | .Complex128 => "complex128" | .Array => "array"
  | .Chan => "chan" | .Func => "func" | .Interface => "interface" | .Map => "map"
  | .Pointer => "ptr" | .Slice => "slice" | .String => "string" | .Struct => "struct"
  | .UnsafePointer => "unsafe.Pointer"

/-- The method `validateExpectedProvider`. -/
def validateExpectedProvider (p : propertyRegistry) (propName : String)
    (expectedKind : reflect.Kind) (allowMissing : Bool) : error :=
  match p.providers.get? propName with
  | none =>
    if !allowMissing then some ("missing required property: " ++ propName)
    else none
  | some provider =>
    if provider.Kind ≠ expectedKind then
      some ("property \"" ++ propName ++ "\" of wrong kind. Expected " ++ reflect.kindString expectedKind)
    else none

/-- One of the first two loops of `validateProperties`, over a table of expected kinds whose
entries are visited in the order of the list: stop at the first error. `allowMissing` gives
the third argument of the call for each name. -/
def validateExpectedLoop (p : propertyRegistry) (allowMissing : String → Bool) :
    List (String × reflect.Kind) → error
  | [] => none
  | (propName, expectedKind) :: rest =>
    match validateExpectedProvider p propName expectedKind (allowMissing propName) with
    | some err => some err
    | none => validateExpectedLoop p allowMissing rest

/-- The third loop of `validateProperties`, over the providers in the order of the list. -/
def validateCustomLoop (p : propertyRegistry) : List (String × propertyProvider) → error
  | [] => none
  | (propName, _) :: rest =>
    let isWellKnown := (p.wellKnownPropertyTypes.get? propName).isSome
    let isBuiltIn := (p.builtInPropertyTypes.get? propName).isSome
    if !isWellKnown && !isBuiltIn && !strings.HasPrefix propName CustomPropertyPrefix then
      some ("property \"" ++ propName ++
        "\" is not a custom property and is not a built in or well known property")
    else validateCustomLoop p rest

/-- The orders in which one call of `validateProperties` visits its three maps. Go leaves the
iteration order of a map unspecified, so the orders are an input of the call. -/
structure rangeOrders where
  builtIn : List (String × reflect.Kind)
  wellKnown : List (String × reflect.Kind)
  providers : List (String × propertyProvider)

/-- A `range` visits every entry of its map exactly once: each order is a permutation of the
entries of the map it ranges over. -/
def rangeOrders.ValidFor (o : rangeOrders) (p : propertyRegistry) : Prop :=
  o.builtIn.Perm p.builtInPropertyTypes.entries ∧
  o.wellKnown.Perm p.wellKnownPropertyTypes.entries ∧
  o.providers.Perm p.providers.entries

/-- The order that visits the three maps of `p` as their entries are listed. -/
def rangeOrders.ofRegistry (p : propertyRegistry) : rangeOrders :=
  { builtIn := p.builtInPropertyTypes.entries
    wellKnown := p.wellKnownPropertyTypes.entries
    providers := p.providers.entries }

/-- The method `validateProperties`. `IsBuiltInPropertyOptional` stands for the function of
that name in `datamodel`, which is outside the embedded files and is taken as an argument;
`o` gives the iteration orders of the three `range` loops. -/
def validateProperties (p : propertyRegistry) (IsBuiltInPropertyOptional : String → Bool)
    (o : rangeOrders) : error :=
  match validateExpectedLoop p IsBuiltInPropertyOptional o.builtIn with
  | some err => some err
  | none =>
    match validateExpectedLoop p (fun _ => true) o.wellKnown with
    | some err => some err
    | none => validateCustomLoop p o.providers

/-! ## Library-backed providers and sequences of registrations -/

/-- Modelled from the spec: the interface `LibPropertyProvider`, declared outside the
embedded files. The spec's data model makes a callback-backed provider a declared kind, fixed
at registration, with a current-value accessor; this is what the host reports at one
instant. -/
structure LibPropertyProvider where
  Kind : reflect.Kind
  Value : GoValue

/-- Modelled from the spec: `newLibPropertyProviderWrapper`, declared outside the embedded
files: the `propertyProvider` whose kind and value are those the host provider reports. -/
def newLibPropertyProviderWrapper (dpp : LibPropertyProvider) : propertyProvider :=
  { Kind := dpp.Kind, Value := dpp.Value }

/-- The method `registerLibPropertyProvider`. -/
def registerLibPropertyProvider (p : propertyRegistry) (key : String)
    (dpp : LibPropertyProvider) : error × propertyRegistry :=
  let dw := newLibPropertyProviderWrapper dpp
  addProviderForKey p key dw

/-- One call of a registration method. -/
inductive registryCall where
  | registerClientProperty (key : String) (value : GoValue)
  | registerStaticProperty (key : String) (value : GoValue)
  | registerLibPropertyProvider (key : String) (dpp : LibPropertyProvider)

/-- The error a call returns and the registry it leaves. -/
def runCall (p : propertyRegistry) : registryCall → error × propertyRegistry
  | .registerClientProperty key value => registerClientProperty p key value
  | .registerStaticProperty key value => registerStaticProperty p key value
  | .registerLibPropertyProvider key dpp => registerLibPropertyProvider p key dpp

/-- The registry after a sequence of calls, each of which may succeed or fail. -/
def runCalls (p : propertyRegistry) : List registryCall → propertyRegistry
  | [] => p
  | c :: cs => runCalls (runCall p c).2 cs

/-! ## Dynamic functions -/

/-- The struct `datamodel.ConditionDynamicFunction`, declared outside the embedded files: a
function and the type witnesses of its signatures. The entries of `newFuncs` are pointers to
such structs and are taken to be non-nil. -/
structure ConditionDynamicFunction where
  Function : GoFunc
  Types : List GoValue

/-- The loop of `RegisterDynamicFunctions` over the entries of `newFuncs` in the order of
the list. -/
def RegisterDynamicFunctionsLoop (pr : propertyRegistry) :
    List (String × ConditionDynamicFunction) → propertyRegistry
  | [] => pr
  | (k, v) :: rest =>
    RegisterDynamicFunctionsLoop
      { pr with
        dynamicFunctionNames := pr.dynamicFunctionNames ++ [k]
        dynamicFunctionOps := pr.dynamicFunctionOps ++ [exprOption.Function k v.Function v.Types] }
      rest

/-- The method `RegisterDynamicFunctions`. `order` is the order in which the `range` visits
the entries of `newFuncs`, a permutation of them. -/
def RegisterDynamicFunctions (pr : propertyRegistry)
    (order : List (String × ConditionDynamicFunction)) : error × propertyRegistry :=
  (none, RegisterDynamicFunctionsLoop pr order)

/-- The method `allFunctionNamesRegistered`. `staticNames` is the slice that
`maps.Keys(p.mapFunctions)` returns: the keys of the map in an order Go leaves unspecified. -/
def allFunctionNamesRegistered (p : propertyRegistry) (staticNames : List String) :
    List String :=
  let functions : List String := []
  let functions := functions ++ staticNames
  let functions := functions ++ p.dynamicFunctionNames
  functions

/-! ## Conditions -/

/-- The struct `datamodel.ConditionFields`, declared outside the embedded files: the
variable names and the method names a condition refers to. -/
structure ConditionFields where
  Variables : List String
  Methods : List String

/-- The loop of `buildPropertyMapForCondition` over `fields.Variables`, with the map built so
far. The error return gives back a nil map, here the empty one. -/
def buildPropertyMapLoop (p : propertyRegistry) :
    List String → GoMap GoValue → GoMap GoValue × error
  | [], propsEnv => (propsEnv, none)
  | v :: rest, propsEnv =>
    if (propsEnv.get? v).isSome then buildPropertyMapLoop p rest propsEnv
    else
      let pv := (propertyValue p v).1
      let err := (propertyValue p v).2
      if err ≠ none ∧ err ≠ some errPropertyNotFound then (GoMap.empty, err)
      else if err = some errPropertyNotFound then
        buildPropertyMapLoop p rest (propsEnv.set v GoValue.nil)
      else
        buildPropertyMapLoop p rest (propsEnv.set v pv)

/-- The method `buildPropertyMapForCondition`. -/
def buildPropertyMapForCondition (p : propertyRegistry) (fields : ConditionFields) :
    GoMap GoValue × error :=
  buildPropertyMapLoop p fields.Variables GoMap.empty

/-- The function literal of `nilMethodsForUnknownFunctions`. -/
def nilFunction : GoFunc := fun _ => (GoValue.nil, none)

/-- The loop of `nilMethodsForUnknownFunctions` over `fields.Methods`. -/
def nilMethodsLoop (existingFunctions : List String) : List String → List exprOption
  | [] => []
  | m :: rest =>
    if !existingFunctions.contains m then
      exprOption.Function m nilFunction [] :: nilMethodsLoop existingFunctions rest
    else nilMethodsLoop existingFunctions rest

/-- The method `nilMethodsForUnknownFunctions`. -/
def nilMethodsForUnknownFunctions (p : propertyRegistry) (fields : ConditionFields)
    (staticNames : List String) : List exprOption × error :=
  let existingFunctions := allFunctionNamesRegistered p staticNames
  (nilMethodsLoop existingFunctions fields.Methods, none)

/-- The call `maps.Copy(dst, src)`: every entry of `src` is assigned into `dst`. -/
def mapsCopy {β : Type} (dst src : GoMap β) : GoMap β :=
  src.entries.foldl (fun d e => d.set e.1 e.2) dst

/-- The struct `datamodel.Condition`, declared outside the embedded files: a condition is
its source text. -/
structure Condition where
  conditionString : String

/-- The three calls `evaluateCondition` makes into the condition parser and the `expr`
library, whose code is outside the embedded files. Each returns a value or a non-nil error,
or panics. `Program` is the type of compiled programs. -/
structure exprLibrary (Program : Type) where
  ExtractIdentifiers : Condition → Outcome (Except String ConditionFields)
  CompileWithEnv : Condition → List exprOption → Outcome (Except String Program)
  Run : Program → GoMap GoValue → Outcome (Except String GoValue)

/-- The environment `evaluateCondition` assembles: the property map of the condition, then
the static constants copied over it, then the static functions. -/
def evaluateConditionEnv (p : propertyRegistry) (fields : ConditionFields) : GoMap GoValue :=
  let envMap := (buildPropertyMapForCondition p fields).1
  let envMap := mapsCopy envMap p.mapConstants
  let envMap := mapsCopy envMap p.mapFunctions
  envMap

/-- The options `evaluateCondition` compiles with: the dynamic functions, the environment,
the stubs of the unknown functions. -/
def evaluateConditionOptions (p : propertyRegistry) (fields : ConditionFields)
    (staticNames : List String) : List exprOption :=
  let nilOps := (nilMethodsForUnknownFunctions p fields staticNames).1
  let mergedOptions : List exprOption := []
  let mergedOptions := mergedOptions ++ p.dynamicFunctionOps
  let mergedOptions := mergedOptions ++ [exprOption.Env (evaluateConditionEnv p fields)]
  let mergedOptions := mergedOptions ++ nilOps
  mergedOptions

/-- The type assertion `boolResult, ok := result.(bool)`: it holds for a value whose dynamic
type is `bool`, and gives `false, false` for every other value, nil among them. -/
def assertBool : GoValue → Bool × Bool
  | GoValue.bool b => (b, true)
  | _ => (false, false)

/-- The body of `evaluateCondition`, before the deferred function runs: the pair it
returns, or the value it panics with. -/
def evaluateConditionBody {Program : Type} (lib : exprLibrary Program) (p : propertyRegistry)
    (condition : Condition) (staticNames : List String) : Outcome (Bool × error) :=
  match lib.ExtractIdentifiers condition with
  | .panics r => .panics r
  | .returns (.error err) => .returns (false, some err)
  | .returns (.ok fields) =>
    match (buildPropertyMapForCondition p fields).2 with
    | some err => .returns (false, some err)
    | none =>
      let envMap := evaluateConditionEnv p fields
      match (nilMethodsForUnknownFunctions p fields staticNames).2 with
      | some err => .returns (false, some err)
      | none =>
        let mergedOptions := evaluateConditionOptions p fields staticNames
        match lib.CompileWithEnv condition mergedOptions with
        | .panics r => .panics r
        | .returns (.error err) => .returns (false, some err)
        | .returns (.ok program) =>
          match lib.Run program envMap with
          | .panics r => .panics r
          | .returns (.error err) => .returns (false, some err)
          | .returns (.ok result) =>
            let boolResult := (assertBool result).1
            let ok := (assertBool result).2
            if !ok then .returns (false, none)
            else .returns (boolResult, none)

/-- The deferred function of `evaluateCondition`: a panic of the body is recovered and the
named results are set to `false` and an error that prints the panic value. -/
def evaluateConditionRecover (body : Outcome (Bool × error)) : Bool × error :=
  match body with
  | .panics r => (false, some ("panic in evaluateCondition: " ++ r))
  | .returns result => result

/-- The method `evaluateCondition`. -/
def evaluateCondition {Program : Type} (lib : exprLibrary Program) (p : propertyRegistry)
    (condition : Condition) (staticNames : List String) : Bool × error :=
  evaluateConditionRecover (evaluateConditionBody lib p condition staticNames)

/-! ## Triggers -/

/-- The struct `Trigger`. -/
structure Trigger where
  EventName : String
  ActionName : String
  deriving DecidableEq, Repr

/-- The struct `jsonTrigger`. -/
structure jsonTrigger where
  EventName : String
  ActionName : String
  deriving DecidableEq, Repr

/-- The method `Trigger.ValidateReturningUserReadableIssue`. -/
def Trigger.ValidateReturningUserReadableIssue (t : Trigger) : String :=
  if t.EventName = "" then "All triggers require an event"
  else if t.ActionName = "" then "All triggers require an action name"
  else ""

/-- The method `Trigger.Validate`. -/
def Trigger.Validate (t : Trigger) : Bool :=
  t.ValidateReturningUserReadableIssue == ""

/-- Modelled from the spec: `cmcore.NewUserPresentableError`, declared outside the embedded
files: a non-nil error that carries the user-readable text. -/
def NewUserPresentableError (userReadableErrorString : String) : error :=
  some userReadableErrorString

/-- Modelled from the spec: `cmcore.NewUserPresentableErrorWSource`, declared outside the
embedded files: a non-nil error that carries the user-readable text and wraps its source. -/
def NewUserPresentableErrorWSource (userReadableErrorString : String) (source : String) :
    error :=
  some (userReadableErrorString ++ ": " ++ source)

/-- The method `Trigger.UnmarshalJSON`: the error it returns and the trigger it leaves.
`jsonUnmarshal` stands for `json.Unmarshal(data, &jt)` on a zero `jsonTrigger`: the decoded
struct, in which a missing field keeps its zero value `""`, or the error of the decoder. -/
def Trigger.UnmarshalJSON (jsonUnmarshal : List Nat → Except String jsonTrigger)
    (t : Trigger) (data : List Nat) : error × Trigger :=
  match jsonUnmarshal data with
  | .error err =>
    (NewUserPresentableErrorWSource
      ("Unable to parse the json of a trigger. Check the format, variable names, " ++
        "and types (eg float vs int).") err, t)
  | .ok jt =>
    let t := { t with ActionName := jt.ActionName }
    let t := { t with EventName := jt.EventName }
    let validationIssue := t.ValidateReturningUserReadableIssue
    if validationIssue ≠ "" then (NewUserPresentableError validationIssue, t)
    else (none, t)

/-! ## The tables of reserved names -/

/-- Modelled from the spec: the contents of one of the tables
`datamodel.BuiltInPropertyTypes()` and `datamodel.WellKnownPropertyTypes()`, which are
declared outside the embedded files. In the spec's data model an engine name is a name that
registration accepts (non-empty, characters in `[A-Za-z0-9_]`), the custom prefix is reserved
for the properties of the client, so no engine name carries it, and the declared kind of a
property is one of bool, string, int and float. -/
def reservedTableOk (table : GoMap reflect.Kind) : Bool :=
  table.entries.all fun e =>
    validPropertyName e.1 && !strings.HasPrefix e.1 CustomPropertyPrefix &&
      validTypes.contains e.2

/-- Modelled from the spec: the two tables of reserved names together. Each is as
`reservedTableOk` says, and a built-in or well-known name has one fixed expected kind: a name
that is in both tables has the same kind in both. -/
def reservedTablesOk (builtIn wellKnown : GoMap reflect.Kind) : Bool :=
  reservedTableOk builtIn && reservedTableOk wellKnown &&
    builtIn.entries.all fun e =>
      match wellKnown.get? e.1 with
      | some kind => decide (kind = e.2)
      | none => true

/-! ## Sample data -/

/-- A built-in table with one string property. -/
def sampleBuiltIn : GoMap reflect.Kind :=
  ⟨[("platform", reflect.Kind.String)], by decide⟩

/-- A well-known table with one boolean property. -/
def sampleWellKnown : GoMap reflect.Kind :=
  ⟨[("user_signed_in", reflect.Kind.Bool)], by decide⟩

/-- A table of static helper functions with one function, `versionGreaterThan`. -/
def sampleFunctions : GoMap GoValue :=
  ⟨[("versionGreaterThan", GoValue.other reflect.Kind.Func 0)], by decide⟩

/-- A table of static constants with one constant, `RFC3339`. -/
def sampleConstants : GoMap GoValue :=
  ⟨[("RFC3339", GoValue.string "2006-01-02T15:04:05Z07:00")], by decide⟩

/-- A fresh registry over the sample tables. -/
def sampleRegistry : propertyRegistry :=
  newPropertyRegistry sampleBuiltIn sampleWellKnown sampleFunctions sampleConstants

/-- The sample registry after the library registers `platform` and the client registers
`foo`: its providers are `platform` and `custom_foo`. -/
def sampleValidRegistry : propertyRegistry :=
  (registerClientProperty
    (registerStaticProperty sampleRegistry "platform" (GoValue.string "ios")).2
    "foo" (GoValue.int 1)).2

/-- An iteration order for `sampleValidRegistry` that visits `custom_foo` before `platform`. -/
def sampleSwappedOrder : rangeOrders :=
  { builtIn := [("platform", reflect.Kind.String)]
    wellKnown := [("user_signed_in", reflect.Kind.Bool)]
    providers := [("custom_foo", staticPropertyProvider (GoValue.int 1)),
      ("platform", staticPropertyProvider (GoValue.string "ios"))] }

/-- The sample registry after the client registers `foo` with 1 and then `custom_foo`
with 2: the providers are `custom_foo` (for `foo`) and `custom_custom_foo`. -/
def sampleShadowedRegistry : propertyRegistry :=
  (registerClientProperty
    (registerClientProperty sampleRegistry "foo" (GoValue.int 1)).2
    "custom_foo" (GoValue.int 2)).2

/-- The fields of a condition that refers to the variable `foo` twice, to the variable
`missing`, to the function `versionGreaterThan` and to the function `futureFunction`. -/
def sampleFields : ConditionFields :=
  { Variables := ["foo", "missing", "foo"]
    Methods := ["versionGreaterThan", "futureFunction"] }

/-- A dynamic function that counts nothing. -/
def sampleDynamicFunction : ConditionDynamicFunction :=
  { Function := fun _ => (GoValue.int 0, none), Types := [] }

/-- Two dynamic functions, as the order in which a `range` visits them. -/
def sampleNewFuncsOrder : List (String × ConditionDynamicFunction) :=
  [("eventCountWithLimit", sampleDynamicFunction), ("eventCount", sampleDynamicFunction)]

/-- The map of the two dynamic functions. -/
def sampleNewFuncs : GoMap ConditionDynamicFunction :=
  ⟨[("eventCount", sampleDynamicFunction), ("eventCountWithLimit", sampleDynamicFunction)],
    by decide⟩

/-- A decoder for three inputs: no bytes do not decode, the byte 1 decodes to a complete
trigger, anything else to a trigger without names. -/
def sampleJsonUnmarshal : List Nat → Except String jsonTrigger
  | [] => .error "unexpected end of JSON input"
  | [1] => .ok { EventName := "app_start", ActionName := "show_banner" }
  | _ => .ok { EventName := "", ActionName := "" }

/-- A toy library over programs that are condition texts: every condition refers to
`sampleFields`; the text `"panic"` makes the parser panic, the text `"eventCount()"` does not
compile, and running a program gives `true` for the text `"true"`, a fault for the text
`"1/0"`, an error for the text `"eventCount(1)"`, and the integer 7 for anything else. -/
def sampleLibrary : exprLibrary String :=
  { ExtractIdentifiers := fun c =>
      if c.conditionString = "panic" then .panics "runtime error"
      else .returns (.ok sampleFields)
    CompileWithEnv := fun c _ =>
      if c.conditionString = "eventCount()" then .returns (.error "not enough arguments")
      else .returns (.ok c.conditionString)
    Run := fun program _ =>
      if program = "true" then .returns (.ok (GoValue.bool true))
      else if program = "1/0" then .panics "integer divide by zero"
      else if program = "eventCount(1)" then .returns (.error "invalid argument")
      else .returns (.ok (GoValue.int 7)) }

/-- Four calls on the sample registry: the library registers `platform`, and then wrongly an
integer for it; the client registers `foo`, and then wrongly the built-in `platform`. -/
def sampleCalls : List registryCall :=
  [registryCall.registerStaticProperty "platform" (GoValue.string "ios"),
    registryCall.registerLibPropertyProvider "platform"
      { Kind := reflect.Kind.Int, Value := GoValue.int 3 },
    registryCall.registerClientProperty "foo" (GoValue.int 1),
    registryCall.registerClientProperty "platform" (GoValue.string "android")]

/-- A registry in which names clash: the static constants are `RFC3339` and `now`, the static
helper functions hold a function `now`, and the client has registered properties named
`RFC3339` and `now`. -/
def sampleClashRegistry : propertyRegistry :=
  (registerClientProperty
    (registerClientProperty
      (newPropertyRegistry sampleBuiltIn sampleWellKnown
        ⟨[("now", GoValue.other reflect.Kind.Func 1)], by decide⟩
        ⟨[("RFC3339", GoValue.string "2006-01-02T15:04:05Z07:00"),
          ("now", GoValue.string "constant")], by decide⟩)
      "RFC3339" (GoValue.int 5)).2
    "now" (GoValue.int 6)).2

/-- The fields of a condition that refers to the variables `RFC3339` and `now`. -/
def sampleClashFields : ConditionFields :=
  { Variables := ["RFC3339", "now"], Methods := [] }

/-- The dynamic function `eventCount` of the sample: it takes one string and counts two
events, and any other argument list is an error. -/
def sampleEventCount : ConditionDynamicFunction :=
  { Function := fun params =>
      match params with
      | [GoValue.string _] => (GoValue.int 2, none)
      | _ => (GoValue.nil, some "eventCount: invalid arguments")
    Types := [] }

/-- The dynamic function `eventCountWithLimit` of the sample: it takes a string and an
integer and counts one event, and any other argument list is an error. -/
def sampleEventCountWithLimit : ConditionDynamicFunction :=
  { Function := fun params =>
      match params with
      | [GoValue.string _, GoValue.int _] => (GoValue.int 1, none)
      | _ => (GoValue.nil, some "eventCountWithLimit: invalid arguments")
    Types := [] }

/-- The two event functions, in the order a `range` visits them. -/
def sampleEventFuncs : List (String × ConditionDynamicFunction) :=
  [("eventCount", sampleEventCount), ("eventCountWithLimit", sampleEventCountWithLimit)]

/-- The sample registry after `RegisterDynamicFunctions` has registered the two event
functions. -/
def sampleEventRegistry : propertyRegistry :=
  (RegisterDynamicFunctions sampleRegistry sampleEventFuncs).2

/-- The conditions the sample call library reads: each is a call compared with 1, given as
the name of the function and its arguments. -/
def sampleCallOf : String → Option (String × List GoValue)
  | "eventCount('test') > 1" => some ("eventCount", [GoValue.string "test"])
  | "eventCount() > 1" => some ("eventCount", [])
  | "eventCount('test', 'test2') > 1" =>
    some ("eventCount", [GoValue.string "test", GoValue.string "test2"])
  | "eventCount(1) > 1" => some ("eventCount", [GoValue.int 1])
  | "eventCount('test', 1) > 1" => some ("eventCount", [GoValue.string "test", GoValue.int 1])
  | "eventCountWithLimit('test') > 1" => some ("eventCountWithLimit", [GoValue.string "test"])
  | "eventCountWithLimit('test', 'test2') > 1" =>
    some ("eventCountWithLimit", [GoValue.string "test", GoValue.string "test2"])
  | "eventCountWithLimit() > 1" => some ("eventCountWithLimit", [])
  | "eventCountWithLimit('test', 1) > 1" =>
    some ("eventCountWithLimit", [GoValue.string "test", GoValue.int 1])
  | _ => none

/-- The function that the first `expr.Function` option of the given name carries. -/
def findFunction (name : String) : List exprOption → Option GoFunc
  | [] => none
  | exprOption.Function n fn _ :: rest => if n = name then some fn else findFunction name rest
  | exprOption.Env _ :: rest => findFunction name rest

/-- A small library that resolves calls through the options it is compiled with. A
condition is one of the calls of `sampleCallOf`; compiling it looks the called function up
among the `expr.Function` options; running it calls that function on the arguments, returns
its error if it has one, and otherwise compares an integer result with 1 (a result that is
not an integer gives nil). -/
def sampleCallLibrary : exprLibrary (GoFunc × List GoValue) :=
  { ExtractIdentifiers := fun c =>
      match sampleCallOf c.conditionString with
      | some call => .returns (.ok { Variables := [], Methods := [call.1] })
      | none => .returns (.error "unexpected token")
    CompileWithEnv := fun c options =>
      match sampleCallOf c.conditionString with
      | some call =>
        match findFunction call.1 options with
        | some fn => .returns (.ok (fn, call.2))
        | none => .returns (.error ("unknown name " ++ call.1))
      | none => .returns (.error "unexpected token")
    Run := fun program _ =>
      match program.1 program.2 with
      | (_, some err) => .returns (.error err)
      | (GoValue.int i, none) => .returns (.ok (GoValue.bool (decide (i > 1))))
      | (_, none) => .returns (.ok GoValue.nil) }

/-! ## The invariant of the registrations -/

/-- What every successful `addProviderForKey` establishes for the key it writes: the key
starts with the custom prefix, or it has an expected kind and the provider is of that
kind. -/
def registeredAsExpected (p : propertyRegistry) : Prop :=
  ∀ name pp, p.providers.get? name = some pp →
    strings.HasPrefix name CustomPropertyPrefix = true ∨
      (expectedTypeForKey p name ≠ reflect.Kind.Invalid ∧
        pp.Kind = expectedTypeForKey p name)

/-! ## The conditions of a valid registry -/

/-- The three conditions under which `validateProperties` reports no error. -/
def validRegistry (p : propertyRegistry) (IsBuiltInPropertyOptional : String → Bool) : Prop :=
  (∀ name ∈ p.builtInPropertyTypes.keys, IsBuiltInPropertyOptional name = false →
    name ∈ p.providers.keys) ∧
  (∀ name kind pp,
    p.builtInPropertyTypes.get? name = some kind ∨
      p.wellKnownPropertyTypes.get? name = some kind →
    p.providers.get? name = some pp → pp.Kind = kind) ∧
  (∀ name ∈ p.providers.keys, name ∉ p.builtInPropertyTypes.keys →
    name ∉ p.wellKnownPropertyTypes.keys → ∃ rest : String, name = "custom_" ++ rest)

/-! ## Facts about Go maps -/

namespace GoMap

variable {β : Type}

theorem lookup_assign_self (l : List (String × β)) (k : String) (v : β) :
    lookup (assign l k v) k = some v := by
  induction l with
  | nil => simp [assign, lookup]
  | cons hd tl ih =>
    obtain ⟨k', v'⟩ := hd
    by_cases h : k' = k
    · simp [assign, lookup, h]
    · simp [assign, lookup, h, ih]

theorem lookup_assign_ne (l : List (String × β)) (k j : String) (v : β) (hne : j ≠ k) :
    lookup (assign l k v) j = lookup l j := by
  induction l with
  | nil =>
    have h : ¬ k = j := fun e => hne e.symm
    simp [assign, lookup, h]
  | cons hd tl ih =>
    obtain ⟨k', v'⟩ := hd
    by_cases h : k' = k
    · subst h
      have h2 : ¬ k' = j := fun e => hne e.symm
      simp [assign, lookup, h2]
    · by_cases h2 : k' = j
      · subst h2
        simp [assign, lookup, h]
      · simp [assign, lookup, h, h2, ih]

theorem map_fst_assign_of_mem (l : List (String × β)) (k : String) (v : β)
    (hk : k ∈ l.map Prod.fst) : (assign l k v).map Prod.fst = l.map Prod.fst := by
  induction l with
  | nil => simp at hk
  | cons hd tl ih =>
    obtain ⟨k', v'⟩ := hd
    by_cases h : k' = k
    · simp [assign, h]
    · have hk2 : k ∈ tl.map Prod.fst := by
        simp only [List.map_cons, List.mem_cons] at hk
        rcases hk with e | e
        · exact absurd e.symm h
        · exact e
      simp [assign, h, ih hk2]

theorem lookup_eq_none_iff (l : List (String × β)) (k : String) :
    lookup l k = none ↔ k ∉ l.map Prod.fst := by
  induction l with
  | nil => simp [lookup]
  | cons hd tl ih =>
    obtain ⟨k', v'⟩ := hd
    by_cases h : k' = k
    · simp [lookup, h]
    · have h2 : ¬ k = k' := fun e => h e.symm
      simp [lookup, h, h2, ih]

theorem mem_of_lookup_eq_some (l : List (String × β)) (k : String) (v : β)
    (h : lookup l k = some v) : (k, v) ∈ l := by
  induction l with
  | nil => simp [lookup] at h
  | cons hd tl ih =>
    obtain ⟨k', v'⟩ := hd
    by_cases hk : k' = k
    · simp only [lookup, hk, if_true, Option.some.injEq] at h
      simp [hk, h]
    · simp only [lookup, hk, if_false] at h
      exact List.mem_cons_of_mem _ (ih h)

theorem lookup_eq_some_of_mem (l : List (String × β)) (hl : (l.map Prod.fst).Nodup)
    (k : String) (v : β) (h : (k, v) ∈ l) : lookup l k = some v := by
  induction l with
  | nil => simp at h
  | cons hd tl ih =>
    obtain ⟨k', v'⟩ := hd
    simp only [List.map_cons, List.nodup_cons] at hl
    rcases List.mem_cons.mp h with e | e
    · simp only [Prod.mk.injEq] at e
      simp [lookup, e.1, e.2]
    · have hk : ¬ k' = k := by
        intro hk
        apply hl.1
        rw [hk]
        exact List.mem_map_of_mem Prod.fst e
      simp only [lookup, hk, if_false]
      exact ih hl.2 e

theorem get?_set_self (m : GoMap β) (k : String) (v : β) : (m.set k v).get? k = some v :=
  lookup_assign_self m.entries k v

theorem get?_set_ne (m : GoMap β) (k j : String) (v : β) (hne : j ≠ k) :
    (m.set k v).get? j = m.get? j :=
  lookup_assign_ne m.entries k j v hne

theorem get?_eq_none_iff (m : GoMap β) (k : String) : m.get? k = none ↔ k ∉ m.keys :=
  lookup_eq_none_iff m.entries k

theorem mem_keys_iff (m : GoMap β) (k : String) : k ∈ m.keys ↔ (m.get? k).isSome = true := by
  rw [← not_iff_not, ← get?_eq_none_iff]
  cases m.get? k <;> simp

theorem mem_entries_iff (m : GoMap β) (k : String) (v : β) :
    (k, v) ∈ m.entries ↔ m.get? k = some v :=
  ⟨lookup_eq_some_of_mem m.entries m.nodup k v, mem_of_lookup_eq_some m.entries k v⟩

theorem keys_set_of_mem (m : GoMap β) (k : String) (v : β) (hk : k ∈ m.keys) :
    (m.set k v).keys = m.keys :=
  map_fst_assign_of_mem m.entries k v hk

end GoMap

/-! ## Facts about names -/

theorem validPropertyRune_eq (c : Char) :
    validPropertyRune c = (c.isAlphanum || c == '_') := by
  unfold validPropertyRune Char.isAlphanum Char.isAlpha Char.isUpper Char.isLower Char.isDigit
  have e1 : (decide (c ≥ 'a')) = decide (c.val ≥ 97) := rfl
  have e2 : (decide (c ≤ 'z')) = decide (c.val ≤ 122) := rfl
  have e3 : (decide (c ≥ '0')) = decide (c.val ≥ 48) := rfl
  have e4 : (decide (c ≤ '9')) = decide (c.val ≤ 57) := rfl
  have e5 : (decide (c ≥ 'A')) = decide (c.val ≥ 65) := rfl
  have e6 : (decide (c ≤ 'Z')) = decide (c.val ≤ 90) := rfl
  rw [e1, e2, e3, e4, e5, e6]
  generalize decide (c.val ≥ 97) = a1
  generalize decide (c.val ≤ 122) = a2
  generalize decide (c.val ≥ 48) = a3
  generalize decide (c.val ≤ 57) = a4
  generalize decide (c.val ≥ 65) = a5
  generalize decide (c.val ≤ 90) = a6
  generalize (c == '_') = a7
  revert a1 a2 a3 a4 a5 a6 a7
  decide

theorem validPropertyNameLoop_eq_true_iff (cs : List Char) :
    validPropertyNameLoop cs = true ↔ ∀ c ∈ cs, validPropertyRune c = true := by
  induction cs with
  | nil => simp [validPropertyNameLoop]
  | cons c cs ih =>
    cases h : validPropertyRune c <;> simp [validPropertyNameLoop, h, ih]

theorem validPropertyName_eq_true_iff (name : String) :
    validPropertyName name = true ↔
      name ≠ "" ∧ name ≠ CustomPropertyPrefix ∧ ∀ c ∈ name.data, validPropertyRune c = true := by
  unfold validPropertyName
  by_cases h1 : name = ""
  · simp [h1]
  · by_cases h2 : name = CustomPropertyPrefix
    · simp [h2]
    · simp [h1, h2, validPropertyNameLoop_eq_true_iff]

theorem ne_customPrefix_append (key : String) : key ≠ CustomPropertyPrefix ++ key := by
  intro h
  have hlen := congrArg (fun s => s.data.length) h
  simp [CustomPropertyPrefix] at hlen
  omega

/-! ## Facts about registration -/

theorem addProviderForKey_tables (pr : propertyRegistry) (key : String) (pp : propertyProvider) :
    (addProviderForKey pr key pp).2.builtInPropertyTypes = pr.builtInPropertyTypes ∧
    (addProviderForKey pr key pp).2.wellKnownPropertyTypes = pr.wellKnownPropertyTypes := by
  unfold addProviderForKey
  split
  · exact ⟨rfl, rfl⟩
  · dsimp only
    split
    · exact ⟨rfl, rfl⟩
    · split <;> exact ⟨rfl, rfl⟩

/-- The outcome of `addProviderForKey` is one of two: an error with the registry untouched,
or no error with `key` bound to `pp`. -/
theorem addProviderForKey_cases (pr : propertyRegistry) (key : String) (pp : propertyProvider) :
    (∃ err, addProviderForKey pr key pp = (some err, pr)) ∨
    addProviderForKey pr key pp = (none, { pr with providers := pr.providers.set key pp }) := by
  unfold addProviderForKey
  split
  · exact Or.inl ⟨_, rfl⟩
  · dsimp only
    split
    · exact Or.inl ⟨_, rfl⟩
    · split
      · exact Or.inl ⟨_, rfl⟩
      · exact Or.inr rfl

theorem addProviderForKey_fst_congr (p q : propertyRegistry) (key : String)
    (pp : propertyProvider) (hB : q.builtInPropertyTypes = p.builtInPropertyTypes)
    (hW : q.wellKnownPropertyTypes = p.wellKnownPropertyTypes) :
    (addProviderForKey q key pp).1 = (addProviderForKey p key pp).1 := by
  have hexp : expectedTypeForKey q key = expectedTypeForKey p key := by
    unfold expectedTypeForKey
    rw [hB, hW]
  unfold addProviderForKey
  rw [hexp]
  split
  · rfl
  · dsimp only
    split
    · rfl
    · split <;> rfl

theorem registerClientProperty_of_not_reserved (p : propertyRegistry) (key : String)
    (value : GoValue) (hB : p.builtInPropertyTypes.get? key = none)
    (hW : p.wellKnownPropertyTypes.get? key = none) (hv : value ≠ GoValue.nil) :
    registerClientProperty p key value =
      addProviderForKey p (CustomPropertyPrefix ++ key) (staticPropertyProvider value) := by
  simp [registerClientProperty, registerStaticProperty, hB, hW, hv]

theorem registerClientProperty_nil_rejected_aux (p : propertyRegistry) (key : String) :
    ∃ err, registerClientProperty p key GoValue.nil = (some err, p) := by
  unfold registerClientProperty
  dsimp only
  split
  · exact ⟨_, rfl⟩
  · exact ⟨"client cannot register nil property: " ++ key, by simp⟩

/-- When `addProviderForKey` accepts: the name is valid, the key is custom or its expected
kind is declared and is the provider's, and the provider's kind is one of the four. -/
theorem addProviderForKey_fst_eq_none_iff (pr : propertyRegistry) (key : String)
    (pp : propertyProvider) :
    (addProviderForKey pr key pp).1 = none ↔
      validPropertyName key = true ∧
      (strings.HasPrefix key CustomPropertyPrefix = true ∨
        (expectedTypeForKey pr key ≠ reflect.Kind.Invalid ∧
          pp.Kind = expectedTypeForKey pr key)) ∧
      pp.Kind ∈ validTypes := by
  unfold addProviderForKey
  cases hv : validPropertyName key
  · simp
  · cases hc : strings.HasPrefix key CustomPropertyPrefix
    · by_cases h1 : expectedTypeForKey pr key = reflect.Kind.Invalid
      · simp [h1]
      · by_cases h2 : pp.Kind = expectedTypeForKey pr key
        · by_cases h3 : pp.Kind ∈ validTypes
          · have h3b : expectedTypeForKey pr key ∈ validTypes := h2 ▸ h3
            simp [h1, h2, h3b]
          · have h3b : expectedTypeForKey pr key ∉ validTypes := h2 ▸ h3
            simp [h1, h2, h3b]
        · simp [h1, h2]
    · by_cases h3 : pp.Kind ∈ validTypes
      · simp [h3]
      · simp [h3]

theorem expectedTypeForKey_of_wellKnown (pr : propertyRegistry) (key : String)
    (kind : reflect.Kind) (hB : pr.builtInPropertyTypes.get? key = none)
    (hW : pr.wellKnownPropertyTypes.get? key = some kind) :
    expectedTypeForKey pr key = kind := by
  simp [expectedTypeForKey, hB, hW]

theorem expectedTypeForKey_of_builtIn (pr : propertyRegistry) (key : String)
    (kind : reflect.Kind) (hB : pr.builtInPropertyTypes.get? key = some kind) :
    expectedTypeForKey pr key = kind := by
  simp [expectedTypeForKey, hB]

theorem invalid_not_mem_validTypes : reflect.Kind.Invalid ∉ validTypes := by decide

/-! ## Facts about validation -/

theorem strings_HasPrefix_iff (s pfx : String) :
    strings.HasPrefix s pfx = true ↔ ∃ rest : String, s = pfx ++ rest := by
  unfold strings.HasPrefix
  rw [List.isPrefixOf_iff_prefix]
  constructor
  · rintro ⟨t, ht⟩
    refine ⟨⟨t⟩, ?_⟩
    apply String.ext
    rw [String.data_append, ht]
  · rintro ⟨rest, h⟩
    refine ⟨rest.data, ?_⟩
    rw [h, String.data_append]

theorem validateExpectedProvider_eq_none_iff (p : propertyRegistry) (propName : String)
    (expectedKind : reflect.Kind) (allowMissing : Bool) :
    validateExpectedProvider p propName expectedKind allowMissing = none ↔
      (p.providers.get? propName = none → allowMissing = true) ∧
      (∀ pp, p.providers.get? propName = some pp → pp.Kind = expectedKind) := by
  unfold validateExpectedProvider
  cases h : p.providers.get? propName with
  | none => cases allowMissing <;> simp
  | some pp => simp

theorem validateExpectedLoop_eq_none_iff (p : propertyRegistry) (allowMissing : String → Bool)
    (l : List (String × reflect.Kind)) :
    validateExpectedLoop p allowMissing l = none ↔
      ∀ e ∈ l, validateExpectedProvider p e.1 e.2 (allowMissing e.1) = none := by
  induction l with
  | nil => simp [validateExpectedLoop]
  | cons hd tl ih =>
    obtain ⟨propName, expectedKind⟩ := hd
    unfold validateExpectedLoop
    cases h : validateExpectedProvider p propName expectedKind (allowMissing propName) with
    | some err => simp [h]
    | none => simp [h, ih]

theorem validateCustomLoop_eq_none_iff (p : propertyRegistry)
    (l : List (String × propertyProvider)) :
    validateCustomLoop p l = none ↔
      ∀ e ∈ l, p.wellKnownPropertyTypes.get? e.1 = none →
        p.builtInPropertyTypes.get? e.1 = none →
        strings.HasPrefix e.1 CustomPropertyPrefix = true := by
  induction l with
  | nil => simp [validateCustomLoop]
  | cons hd tl ih =>
    obtain ⟨propName, pp⟩ := hd
    unfold validateCustomLoop
    dsimp only
    split
    · rename_i hbad
      simp only [Bool.and_eq_true, Bool.not_eq_true', Option.not_isSome,
        Option.isNone_iff_eq_none] at hbad
      simp only [reduceCtorEq, List.mem_cons, forall_eq_or_imp, false_iff, not_and]
      intro hhd
      have := hhd hbad.1.1 hbad.1.2
      rw [hbad.2] at this
      exact absurd this (by simp)
    · rename_i hgood
      rw [ih]
      simp only [List.mem_cons, forall_eq_or_imp, iff_and_self]
      intro _ h1 h2
      by_contra h3
      apply hgood
      simp [h1, h2, h3]

theorem validateProperties_eq_none_iff (p : propertyRegistry) (opt : String → Bool)
    (o : rangeOrders) (ho : o.ValidFor p) :
    validateProperties p opt o = none ↔ validRegistry p opt := by
  obtain ⟨hB, hW, hP⟩ := ho
  have step : validateProperties p opt o = none ↔
      validateExpectedLoop p opt o.builtIn = none ∧
      validateExpectedLoop p (fun _ => true) o.wellKnown = none ∧
      validateCustomLoop p o.providers = none := by
    unfold validateProperties
    cases validateExpectedLoop p opt o.builtIn with
    | some e => simp
    | none =>
      cases validateExpectedLoop p (fun _ => true) o.wellKnown with
      | some e => simp
      | none => simp
  rw [step, validateExpectedLoop_eq_none_iff, validateExpectedLoop_eq_none_iff,
    validateCustomLoop_eq_none_iff]
  simp only [validateExpectedProvider_eq_none_iff, Prod.forall, hB.mem_iff, hW.mem_iff,
    hP.mem_iff, GoMap.mem_entries_iff]
  unfold validRegistry
  constructor
  · rintro ⟨h1, h2, h3⟩
    refine ⟨?_, ?_, ?_⟩
    · intro name hname hopt
      rw [GoMap.mem_keys_iff] at hname ⊢
      obtain ⟨kind, hk⟩ := Option.isSome_iff_exists.mp hname
      cases hpp : p.providers.get? name with
      | some pp => rfl
      | none =>
        have := (h1 name kind hk).1 hpp
        rw [hopt] at this
        exact absurd this (by simp)
    · intro name kind pp hk hpp
      rcases hk with hk | hk
      · exact (h1 name kind hk).2 pp hpp
      · exact (h2 name kind hk).2 pp hpp
    · intro name hname hnb hnw
      rw [GoMap.mem_keys_iff] at hname
      obtain ⟨pp, hpp⟩ := Option.isSome_iff_exists.mp hname
      exact (strings_HasPrefix_iff name CustomPropertyPrefix).mp
        (h3 name pp hpp ((GoMap.get?_eq_none_iff _ _).mpr hnw)
          ((GoMap.get?_eq_none_iff _ _).mpr hnb))
  · rintro ⟨h1, h2, h3⟩
    refine ⟨?_, ?_, ?_⟩
    · intro name kind hk
      refine ⟨?_, fun pp hpp => h2 name kind pp (Or.inl hk) hpp⟩
      intro hnone
      by_contra hopt
      have hmem : name ∈ p.builtInPropertyTypes.keys := by
        simp [GoMap.mem_keys_iff, hk]
      have := h1 name hmem (by simpa using hopt)
      rw [GoMap.mem_keys_iff, hnone] at this
      exact absurd this (by simp)
    · intro name kind hk
      exact ⟨fun _ => trivial, fun pp hpp => h2 name kind pp (Or.inr hk) hpp⟩
    · intro name pp hpp hnw hnb
      have hmem : name ∈ p.providers.keys := by
        simp [GoMap.mem_keys_iff, hpp]
      exact (strings_HasPrefix_iff name CustomPropertyPrefix).mpr
        (h3 name hmem ((GoMap.get?_eq_none_iff _ _).mp hnb)
          ((GoMap.get?_eq_none_iff _ _).mp hnw))

/-! ## Facts about conditions and dynamic functions -/

theorem propertyValue_snd_cases (p : propertyRegistry) (key : String) :
    (propertyValue p key).2 = none ∨
      propertyValue p key = (GoValue.nil, some errPropertyNotFound) := by
  unfold propertyValue
  cases p.providers.get? key with
  | some v => exact Or.inl rfl
  | none =>
    cases p.providers.get? (CustomPropertyPrefix ++ key) with
    | some v => exact Or.inl rfl
    | none => exact Or.inr rfl

/-- What `buildPropertyMapForCondition` binds a variable to: `nil` when `propertyValue`
reports the property as not found, else the value `propertyValue` returns. -/
theorem buildPropertyMapLoop_spec (p : propertyRegistry) (vars : List String)
    (env : GoMap GoValue) :
    (buildPropertyMapLoop p vars env).2 = none ∧
    ∀ k, (buildPropertyMapLoop p vars env).1.get? k =
      match env.get? k with
      | some v => some v
      | none =>
        if k ∈ vars then
          some (if (propertyValue p k).2 = some errPropertyNotFound then GoValue.nil
            else (propertyValue p k).1)
        else none := by
  induction vars generalizing env with
  | nil =>
    refine ⟨rfl, fun k => ?_⟩
    simp only [buildPropertyMapLoop, List.not_mem_nil, if_false]
    cases env.get? k <;> rfl
  | cons v rest ih =>
    unfold buildPropertyMapLoop
    by_cases hv : (env.get? v).isSome = true
    · rw [if_pos hv]
      refine ⟨(ih env).1, fun k => ?_⟩
      rw [(ih env).2 k]
      cases hk : env.get? k with
      | some w => rfl
      | none =>
        have hne : k ≠ v := by
          intro e
          rw [e] at hk
          rw [hk] at hv
          exact absurd hv (by simp)
        simp [hne]
    · rw [if_neg hv]
      have hvnone : env.get? v = none := by
        cases h : env.get? v with
        | none => rfl
        | some w => rw [h] at hv; exact absurd rfl hv
      dsimp only
      have key : ∀ env' : GoMap GoValue,
          env' = env.set v (if (propertyValue p v).2 = some errPropertyNotFound
            then GoValue.nil else (propertyValue p v).1) →
          (buildPropertyMapLoop p rest env').2 = none ∧
          ∀ k, (buildPropertyMapLoop p rest env').1.get? k =
            match env.get? k with
            | some w => some w
            | none =>
              if k ∈ v :: rest then
                some (if (propertyValue p k).2 = some errPropertyNotFound then GoValue.nil
                  else (propertyValue p k).1)
              else none := by
        intro env' henv
        refine ⟨(ih env').1, fun k => ?_⟩
        rw [(ih env').2 k, henv]
        by_cases hk : k = v
        · subst hk
          rw [GoMap.get?_set_self, hvnone]
          simp
        · rw [GoMap.get?_set_ne _ _ _ _ hk]
          cases env.get? k with
          | some w => rfl
          | none => simp [hk]
      rcases propertyValue_snd_cases p v with h | h
      · have h1 : ¬ ((propertyValue p v).2 ≠ none ∧
            (propertyValue p v).2 ≠ some errPropertyNotFound) := by
          rw [h]; simp
        have h2 : ¬ (propertyValue p v).2 = some errPropertyNotFound := by
          rw [h]; simp
        rw [if_neg h1, if_neg h2]
        exact key _ (by rw [if_neg h2])
      · have h1 : ¬ ((propertyValue p v).2 ≠ none ∧
            (propertyValue p v).2 ≠ some errPropertyNotFound) := by
          rw [h]; simp
        have h2 : (propertyValue p v).2 = some errPropertyNotFound := by
          rw [h]
        rw [if_neg h1, if_pos h2]
        exact key _ (by rw [if_pos h2])

theorem nilMethodsLoop_eq (existingFunctions : List String) (methods : List String) :
    nilMethodsLoop existingFunctions methods =
      (methods.filter (fun m => decide (m ∉ existingFunctions))).map
        (fun m => exprOption.Function m nilFunction []) := by
  induction methods with
  | nil => rfl
  | cons m rest ih =>
    unfold nilMethodsLoop
    by_cases h : m ∈ existingFunctions
    · simp [h, ih]
    · simp [h, ih]

theorem RegisterDynamicFunctionsLoop_spec (pr : propertyRegistry)
    (order : List (String × ConditionDynamicFunction)) :
    RegisterDynamicFunctionsLoop pr order =
      { pr with
        dynamicFunctionNames := pr.dynamicFunctionNames ++ order.map Prod.fst
        dynamicFunctionOps := pr.dynamicFunctionOps ++
          order.map (fun e => exprOption.Function e.1 e.2.Function e.2.Types) } := by
  induction order generalizing pr with
  | nil => simp [RegisterDynamicFunctionsLoop]
  | cons hd tl ih =>
    obtain ⟨k, v⟩ := hd
    unfold RegisterDynamicFunctionsLoop
    rw [ih]
    simp

/-! ## Facts about sequences of registrations -/

theorem runCall_cases (p : propertyRegistry) (c : registryCall) :
    (∃ err, runCall p c = (some err, p)) ∨
    ∃ key pp, runCall p c = addProviderForKey p key pp := by
  cases c with
  | registerClientProperty key value =>
    unfold runCall registerClientProperty
    dsimp only
    split
    · exact Or.inl ⟨_, rfl⟩
    · split
      · exact Or.inl ⟨_, rfl⟩
      · split
        · exact Or.inl ⟨_, rfl⟩
        · exact Or.inr ⟨_, _, rfl⟩
  | registerStaticProperty key value => exact Or.inr ⟨_, _, rfl⟩
  | registerLibPropertyProvider key dpp => exact Or.inr ⟨_, _, rfl⟩

theorem registeredAsExpected_addProviderForKey (p : propertyRegistry) (key : String)
    (pp : propertyProvider) (h : registeredAsExpected p) :
    registeredAsExpected (addProviderForKey p key pp).2 := by
  rcases addProviderForKey_cases p key pp with ⟨err, he⟩ | he
  · rw [he]
    exact h
  · have hok : (addProviderForKey p key pp).1 = none := by rw [he]
    rw [addProviderForKey_fst_eq_none_iff] at hok
    rw [he]
    intro name q hq
    have hexp : expectedTypeForKey
        { p with providers := p.providers.set key pp } name = expectedTypeForKey p name := rfl
    rw [hexp]
    by_cases hname : name = key
    · subst hname
      have hq2 : (p.providers.set name pp).get? name = some q := hq
      rw [GoMap.get?_set_self] at hq2
      have hqq : pp = q := Option.some.inj hq2
      rw [← hqq]
      exact hok.2.1
    · have hq2 : (p.providers.set key pp).get? name = some q := hq
      rw [GoMap.get?_set_ne _ _ _ _ hname] at hq2
      exact h name q hq2

theorem runCall_tables (p : propertyRegistry) (c : registryCall) :
    (runCall p c).2.builtInPropertyTypes = p.builtInPropertyTypes ∧
    (runCall p c).2.wellKnownPropertyTypes = p.wellKnownPropertyTypes := by
  rcases runCall_cases p c with ⟨err, h⟩ | ⟨key, pp, h⟩
  · rw [h]
    exact ⟨rfl, rfl⟩
  · rw [h]
    exact addProviderForKey_tables p key pp

theorem runCalls_tables (p : propertyRegistry) (calls : List registryCall) :
    (runCalls p calls).builtInPropertyTypes = p.builtInPropertyTypes ∧
    (runCalls p calls).wellKnownPropertyTypes = p.wellKnownPropertyTypes := by
  induction calls generalizing p with
  | nil => exact ⟨rfl, rfl⟩
  | cons c cs ih =>
    unfold runCalls
    have h1 := ih (runCall p c).2
    have h2 := runCall_tables p c
    exact ⟨h1.1.trans h2.1, h1.2.trans h2.2⟩

theorem registeredAsExpected_runCalls (p : propertyRegistry) (calls : List registryCall)
    (h : registeredAsExpected p) : registeredAsExpected (runCalls p calls) := by
  induction calls generalizing p with
  | nil => exact h
  | cons c cs ih =>
    unfold runCalls
    apply ih
    rcases runCall_cases p c with ⟨err, he⟩ | ⟨key, pp, he⟩
    · rw [he]
      exact h
    · rw [he]
      exact registeredAsExpected_addProviderForKey p key pp h

theorem registeredAsExpected_new (builtIn wellKnown : GoMap reflect.Kind)
    (staticFunctions staticConstants : GoMap GoValue) :
    registeredAsExpected (newPropertyRegistry builtIn wellKnown staticFunctions
      staticConstants) := by
  intro name pp h
  simp [newPropertyRegistry, GoMap.get?, GoMap.empty, GoMap.lookup] at h

theorem mem_keys_of_expectedTypeForKey_ne (p : propertyRegistry) (name : String)
    (h : expectedTypeForKey p name ≠ reflect.Kind.Invalid) :
    name ∈ p.builtInPropertyTypes.keys ∨ name ∈ p.wellKnownPropertyTypes.keys := by
  unfold expectedTypeForKey at h
  cases hb : p.builtInPropertyTypes.get? name with
  | some k => exact Or.inl (by simp [GoMap.mem_keys_iff, hb])
  | none =>
    cases hw : p.wellKnownPropertyTypes.get? name with
    | some k => exact Or.inr (by simp [GoMap.mem_keys_iff, hw])
    | none => simp [hb, hw] at h

/-! ## Facts about the environment of a condition -/

theorem foldl_set_get? {β : Type} (l : List (String × β)) (hl : (l.map Prod.fst).Nodup)
    (dst : GoMap β) (k : String) :
    (l.foldl (fun d e => d.set e.1 e.2) dst).get? k =
      match GoMap.lookup l k with
      | some v => some v
      | none => dst.get? k := by
  induction l generalizing dst with
  | nil => rfl
  | cons hd tl ih =>
    obtain ⟨k', v'⟩ := hd
    simp only [List.map_cons, List.nodup_cons] at hl
    rw [List.foldl_cons, ih hl.2]
    by_cases hk : k' = k
    · subst hk
      have hnone : GoMap.lookup tl k' = none := (GoMap.lookup_eq_none_iff tl k').mpr hl.1
      simp only [hnone, GoMap.lookup, if_true]
      exact GoMap.get?_set_self dst k' v'
    · have hne : k ≠ k' := fun e => hk e.symm
      simp only [GoMap.lookup, hk, if_false]
      rw [GoMap.get?_set_ne dst k' k v' hne]

theorem mapsCopy_get? {β : Type} (dst src : GoMap β) (k : String) :
    (mapsCopy dst src).get? k =
      match src.get? k with
      | some v => some v
      | none => dst.get? k :=
  foldl_set_get? src.entries src.nodup dst k

theorem expectedTypeForKey_eq_iff (pr : propertyRegistry) (key : String)
    (kind : reflect.Kind) (hkind : kind ≠ reflect.Kind.Invalid) :
    expectedTypeForKey pr key = kind ↔
      (pr.builtInPropertyTypes.get? key = some kind ∨
        (pr.builtInPropertyTypes.get? key = none ∧
          pr.wellKnownPropertyTypes.get? key = some kind)) := by
  unfold expectedTypeForKey
  cases hb : pr.builtInPropertyTypes.get? key with
  | some k => simp
  | none =>
    cases hw : pr.wellKnownPropertyTypes.get? key with
    | some k => simp
    | none =>
      simp only [reduceCtorEq, false_or, and_false, iff_false]
      exact fun e => hkind e.symm

/-! ## Facts about the tables of reserved names -/

theorem reservedTableOk_get? (table : GoMap reflect.Kind) (h : reservedTableOk table = true)
    (key : String) (kind : reflect.Kind) (hk : table.get? key = some kind) :
    validPropertyName key = true ∧ strings.HasPrefix key CustomPropertyPrefix = false ∧
      kind ∈ validTypes := by
  have hmem := (GoMap.mem_entries_iff table key kind).mpr hk
  unfold reservedTableOk at h
  rw [List.all_eq_true] at h
  have := h (key, kind) hmem
  simp only [Bool.and_eq_true, Bool.not_eq_true'] at this
  exact ⟨this.1.1, this.1.2, by simpa using this.2⟩

theorem reservedTablesOk_left (builtIn wellKnown : GoMap reflect.Kind)
    (h : reservedTablesOk builtIn wellKnown = true) : reservedTableOk builtIn = true := by
  unfold reservedTablesOk at h
  simp only [Bool.and_eq_true] at h
  exact h.1.1

theorem reservedTablesOk_right (builtIn wellKnown : GoMap reflect.Kind)
    (h : reservedTablesOk builtIn wellKnown = true) : reservedTableOk wellKnown = true := by
  unfold reservedTablesOk at h
  simp only [Bool.and_eq_true] at h
  exact h.1.2

theorem reservedTablesOk_agree (builtIn wellKnown : GoMap reflect.Kind)
    (h : reservedTablesOk builtIn wellKnown = true) (key : String) (k1 k2 : reflect.Kind)
    (h1 : builtIn.get? key = some k1) (h2 : wellKnown.get? key = some k2) : k1 = k2 := by
  unfold reservedTablesOk at h
  simp only [Bool.and_eq_true] at h
  have hall := h.2
  rw [List.all_eq_true] at hall
  have := hall (key, k1) ((GoMap.mem_entries_iff builtIn key k1).mpr h1)
  simp only [h2, decide_eq_true_eq] at this
  exact this.symm

/-- With tables as the spec describes them, the expected kind of a key that is in one of
them is the kind declared there, whichever table it is. -/
theorem expectedTypeForKey_of_reserved (pr : propertyRegistry)
    (h : reservedTablesOk pr.builtInPropertyTypes pr.wellKnownPropertyTypes = true)
    (key : String) (kind : reflect.Kind)
    (hk : pr.builtInPropertyTypes.get? key = some kind ∨
      pr.wellKnownPropertyTypes.get? key = some kind) :
    expectedTypeForKey pr key = kind := by
  rcases hk with hb | hw
  · exact expectedTypeForKey_of_builtIn pr key kind hb
  · cases hb : pr.builtInPropertyTypes.get? key with
    | none => exact expectedTypeForKey_of_wellKnown pr key kind hb hw
    | some k1 =>
      rw [expectedTypeForKey_of_builtIn pr key k1 hb]
      exact reservedTablesOk_agree _ _ h key k1 kind hb hw

/-- For a well-known key that is not built-in and a non-nil value, a value whose
kind differs from the expected kind of the well-known table is refused and the registry is
unchanged; when the kind matches, the call is the registration of a static provider under
the un-prefixed key itself, so no other entry (that of `"custom_" + key` among them) changes,
and the value is stored under `key` when `key` is a valid property name and the kind is one of
Bool, String, Int and Float64, and otherwise the call returns an error and stores nothing. -/
theorem registerClientProperty_wellKnown_cases (p : propertyRegistry) (key : String)
    (value : GoValue) (kind : reflect.Kind) (hB : key ∉ p.builtInPropertyTypes.keys)
    (hW : p.wellKnownPropertyTypes.get? key = some kind) (hv : value ≠ GoValue.nil) :
    (value.Kind ≠ kind →
      registerClientProperty p key value =
        (some ("property registered of wrong type (does not match expected type): " ++ key),
          p)) ∧
    (value.Kind = kind →
      registerClientProperty p key value = registerStaticProperty p key value ∧
      (∀ j, j ≠ key →
        (registerClientProperty p key value).2.providers.get? j = p.providers.get? j) ∧
      (validPropertyName key = true → kind ∈ validTypes →
        registerClientProperty p key value =
          (none, { p with providers := p.providers.set key (staticPropertyProvider value) })) ∧
      (¬ (validPropertyName key = true ∧ kind ∈ validTypes) →
        ∃ err, registerClientProperty p key value = (some err, p))) := by
  have hB2 := (GoMap.get?_eq_none_iff _ _).mpr hB
  constructor
  · intro hk
    simp [registerClientProperty, hB2, hW, hv, hk]
  · intro hk
    have e : registerClientProperty p key value =
        addProviderForKey p key (staticPropertyProvider value) := by
      simp [registerClientProperty, registerStaticProperty, hB2, hW, hv, hk]
    have hiff := addProviderForKey_fst_eq_none_iff p key (staticPropertyProvider value)
    have hexp := expectedTypeForKey_of_wellKnown p key kind hB2 hW
    have hkind : (staticPropertyProvider value).Kind = kind := hk
    rw [hexp, hkind] at hiff
    refine ⟨by rw [e]; rfl, ?_, ?_, ?_⟩
    · intro j hj
      rw [e]
      rcases addProviderForKey_cases p key (staticPropertyProvider value) with ⟨err, h⟩ | h
      · rw [h]
      · rw [h]
        exact GoMap.get?_set_ne _ _ _ _ hj
    · intro hname hvalid
      rw [e]
      rcases addProviderForKey_cases p key (staticPropertyProvider value) with ⟨err, h⟩ | h
      · have hnone : (addProviderForKey p key (staticPropertyProvider value)).1 = none := by
          rw [hiff]
          refine ⟨hname, Or.inr ⟨?_, rfl⟩, hvalid⟩
          intro hinv
          exact invalid_not_mem_validTypes (hinv ▸ hvalid)
        rw [h] at hnone
        simp at hnone
      · exact h
    · intro hbad
      rw [e]
      rcases addProviderForKey_cases p key (staticPropertyProvider value) with ⟨err, h⟩ | h
      · exact ⟨err, h⟩
      · exfalso
        apply hbad
        have hnone : (addProviderForKey p key (staticPropertyProvider value)).1 = none := by
          rw [h]
        rw [hiff] at hnone
        exact ⟨hnone.1, hnone.2.2⟩

/-- When the compilation of a condition against the options `evaluateCondition` passes
reports an error, or its execution does, `evaluateCondition` returns `false` and that error,
which is non-nil: the result is neither `(false, nil)` nor `(true, nil)`. -/
theorem evaluateCondition_forwards_error {Program : Type} (lib : exprLibrary Program)
    (p : propertyRegistry) (condition : Condition) (staticNames : List String)
    (fields : ConditionFields)
    (hfields : lib.ExtractIdentifiers condition = .returns (.ok fields)) :
    (∀ err, lib.CompileWithEnv condition (evaluateConditionOptions p fields staticNames) =
        .returns (.error err) →
      evaluateCondition lib p condition staticNames = (false, some err)) ∧
    (∀ program err,
      lib.CompileWithEnv condition (evaluateConditionOptions p fields staticNames) =
        .returns (.ok program) →
      lib.Run program (evaluateConditionEnv p fields) = .returns (.error err) →
      evaluateCondition lib p condition staticNames = (false, some err)) := by
  have hbuild : (buildPropertyMapForCondition p fields).2 = none :=
    (buildPropertyMapLoop_spec p fields.Variables GoMap.empty).1
  have hnil : (nilMethodsForUnknownFunctions p fields staticNames).2 = none := rfl
  constructor
  · intro err hprogram
    unfold evaluateCondition evaluateConditionBody
    rw [hfields]
    dsimp only
    rw [hbuild]
    dsimp only
    rw [hnil]
    dsimp only
    rw [hprogram]
    rfl
  · intro program err hprogram hrun
    unfold evaluateCondition evaluateConditionBody
    rw [hfields]
    dsimp only
    rw [hbuild]
    dsimp only
    rw [hnil]
    dsimp only
    rw [hprogram]
    dsimp only
    rw [hrun]
    rfl

/-! ## The claims -/

/-- C1 as stated fails: after the client registers `foo` with 1 and then `custom_foo` with 2
(a name that is not well-known, and the call succeeds), `propertyValue("custom_foo")` is 1,
the value of `foo`, and `propertyValue("custom_custom_foo")` is 2. -/
theorem propertyValue_prefix_counterexample :
    (registerClientProperty (registerClientProperty sampleRegistry "foo" (GoValue.int 1)).2
      "custom_foo" (GoValue.int 2)).1 = none ∧
    "custom_foo" ∉ sampleRegistry.wellKnownPropertyTypes.keys ∧
    propertyValue sampleShadowedRegistry "custom_foo" = (GoValue.int 1, none) ∧
    propertyValue sampleShadowedRegistry ("custom_" ++ "custom_foo") = (GoValue.int 2, none) ∧
    propertyValue sampleShadowedRegistry "custom_foo" ≠
      propertyValue sampleShadowedRegistry ("custom_" ++ "custom_foo") := by
  decide

/-- C1, amended: when `registerClientProperty(name, v)` succeeds for a name that is not
well-known and no provider is stored under the plain name itself, `propertyValue(name)` and
`propertyValue("custom_" + name)` both succeed and both return `v`. -/
theorem propertyValue_prefix_transparent (p : propertyRegistry) (name : String)
    (value : GoValue) (hW : name ∉ p.wellKnownPropertyTypes.keys)
    (hok : (registerClientProperty p name value).1 = none)
    (hplain : (registerClientProperty p name value).2.providers.get? name = none) :
    propertyValue (registerClientProperty p name value).2 name = (value, none) ∧
    propertyValue (registerClientProperty p name value).2 (CustomPropertyPrefix ++ name) =
      (value, none) := by
  have hW2 := (GoMap.get?_eq_none_iff _ _).mpr hW
  have hB : p.builtInPropertyTypes.get? name = none := by
    cases h : p.builtInPropertyTypes.get? name with
    | none => rfl
    | some k =>
      simp [registerClientProperty, h] at hok
  have hv : value ≠ GoValue.nil := by
    intro h
    obtain ⟨err, he⟩ := registerClientProperty_nil_rejected_aux p name
    rw [h, he] at hok
    simp at hok
  have e := registerClientProperty_of_not_reserved p name value hB hW2 hv
  rw [e] at hok hplain ⊢
  rcases addProviderForKey_cases p (CustomPropertyPrefix ++ name)
    (staticPropertyProvider value) with ⟨err, h⟩ | h
  · rw [h] at hok
    simp at hok
  · rw [h] at hplain ⊢
    have hset : (p.providers.set (CustomPropertyPrefix ++ name)
        (staticPropertyProvider value)).get? (CustomPropertyPrefix ++ name) =
        some (staticPropertyProvider value) := GoMap.get?_set_self _ _ _
    dsimp only at hplain
    constructor
    · unfold propertyValue
      dsimp only
      rw [hplain, hset]
      rfl
    · unfold propertyValue
      dsimp only
      rw [hset]
      rfl

/-- C1, amended, at the sample registry: `foo` and `custom_foo` both give 1. -/
theorem propertyValue_prefix_transparent_witness :
    propertyValue (registerClientProperty sampleRegistry "foo" (GoValue.int 1)).2 "foo" =
      (GoValue.int 1, none) ∧
    propertyValue (registerClientProperty sampleRegistry "foo" (GoValue.int 1)).2
      (CustomPropertyPrefix ++ "foo") = (GoValue.int 1, none) :=
  propertyValue_prefix_transparent sampleRegistry "foo" (GoValue.int 1)
    (by decide) (by decide) (by decide)

/-- C2: `propertyValue(key)` returns the current `Value()` of the provider stored under `key`
when there is one; otherwise that of the provider stored under `"custom_" + key` when there is
one; and it returns `errPropertyNotFound`, with a nil value, exactly when neither `key` nor
`"custom_" + key` has a provider (every other result carries no error). -/
theorem propertyValue_spec (p : propertyRegistry) (key : String) :
    (∀ pp, p.providers.get? key = some pp → propertyValue p key = (pp.Value, none)) ∧
    (∀ pp, p.providers.get? key = none →
      p.providers.get? (CustomPropertyPrefix ++ key) = some pp →
      propertyValue p key = (pp.Value, none)) ∧
    ((propertyValue p key).2 = some errPropertyNotFound ↔
      p.providers.get? key = none ∧ p.providers.get? (CustomPropertyPrefix ++ key) = none) ∧
    ((propertyValue p key).2 ≠ none →
      propertyValue p key = (GoValue.nil, some errPropertyNotFound)) := by
  unfold propertyValue
  refine ⟨?_, ?_, ?_, ?_⟩
  · intro pp h
    simp [h]
  · intro pp h1 h2
    simp [h1, h2]
  · cases h1 : p.providers.get? key with
    | some v => simp
    | none =>
      cases h2 : p.providers.get? (CustomPropertyPrefix ++ key) with
      | some v => simp
      | none => simp
  · cases h1 : p.providers.get? key with
    | some v => simp
    | none =>
      cases h2 : p.providers.get? (CustomPropertyPrefix ++ key) with
      | some v => simp
      | none => simp

/-- C3: `validateProperties` returns no error if and only if (a) every built-in name that is
not declared optional has a provider, (b) every built-in or well-known name that has a
provider has one whose `Kind()` is the expected kind of the table, and (c) every provider name
that is in neither table starts with `"custom_"`. No condition asks for a well-known name to
have a provider, and whether an error is returned is the same for any two iteration orders of
the three maps. -/
theorem validateProperties_ok_iff (p : propertyRegistry)
    (IsBuiltInPropertyOptional : String → Bool) (o o' : rangeOrders)
    (ho : o.ValidFor p) (ho' : o'.ValidFor p) :
    (validateProperties p IsBuiltInPropertyOptional o = none ↔
      (∀ name ∈ p.builtInPropertyTypes.keys, IsBuiltInPropertyOptional name = false →
        name ∈ p.providers.keys) ∧
      (∀ name kind pp,
        p.builtInPropertyTypes.get? name = some kind ∨
          p.wellKnownPropertyTypes.get? name = some kind →
        p.providers.get? name = some pp → pp.Kind = kind) ∧
      (∀ name ∈ p.providers.keys, name ∉ p.builtInPropertyTypes.keys →
        name ∉ p.wellKnownPropertyTypes.keys → ∃ rest : String, name = "custom_" ++ rest)) ∧
    (validateProperties p IsBuiltInPropertyOptional o' = none ↔
      validateProperties p IsBuiltInPropertyOptional o = none) := by
  have h := validateProperties_eq_none_iff p IsBuiltInPropertyOptional o ho
  have h' := validateProperties_eq_none_iff p IsBuiltInPropertyOptional o' ho'
  refine ⟨?_, h'.trans h.symm⟩
  unfold validRegistry at h
  exact h

/-- A use of C3: a registry holding the built-in `platform` and the client property `foo`,
visited in two different orders. -/
theorem validateProperties_ok_iff_witness :
    (rangeOrders.ofRegistry sampleValidRegistry).ValidFor sampleValidRegistry ∧
    sampleSwappedOrder.ValidFor sampleValidRegistry ∧
    validateProperties sampleValidRegistry (fun _ => false)
      (rangeOrders.ofRegistry sampleValidRegistry) = none ∧
    validateProperties sampleValidRegistry (fun _ => false) sampleSwappedOrder = none :=
  have h1 : (rangeOrders.ofRegistry sampleValidRegistry).ValidFor sampleValidRegistry :=
    ⟨List.Perm.refl _, List.Perm.refl _, List.Perm.refl _⟩
  have h2 : sampleSwappedOrder.ValidFor sampleValidRegistry :=
    ⟨List.Perm.refl _, List.Perm.refl _, List.Perm.swap _ _ _⟩
  have h3 : validateProperties sampleValidRegistry (fun _ => false)
      (rangeOrders.ofRegistry sampleValidRegistry) = none := by decide
  ⟨h1, h2, h3,
    (validateProperties_ok_iff sampleValidRegistry (fun _ => false)
      (rangeOrders.ofRegistry sampleValidRegistry) sampleSwappedOrder h1 h2).2.mpr h3⟩

/-- C4: for every key of the built-in table and every value, `registerClientProperty` returns
an error (the reserved-name one) and leaves the registry, so the providers map, unchanged. -/
theorem registerClientProperty_builtIn_rejected (p : propertyRegistry) (key : String)
    (value : GoValue) (hkey : key ∈ p.builtInPropertyTypes.keys) :
    registerClientProperty p key value =
      (some ("client cannot register reserved built in property: " ++ key), p) := by
  have h := (GoMap.mem_keys_iff p.builtInPropertyTypes key).mp hkey
  simp [registerClientProperty, h]

/-- C4 at the sample registry: the client may not register the built-in `platform`. -/
theorem registerClientProperty_builtIn_rejected_witness :
    "platform" ∈ sampleRegistry.builtInPropertyTypes.keys ∧
    registerClientProperty sampleRegistry "platform" (GoValue.string "ios") =
      (some ("client cannot register reserved built in property: " ++ "platform"),
        sampleRegistry) :=
  ⟨by decide,
    registerClientProperty_builtIn_rejected sampleRegistry "platform" (GoValue.string "ios")
      (by decide)⟩

/-- C5: for every key, `registerClientProperty(key, nil)` returns an error and leaves the
registry, so the providers map, unchanged. -/
theorem registerClientProperty_nil_rejected (p : propertyRegistry) (key : String) :
    ∃ err, registerClientProperty p key GoValue.nil = (some err, p) :=
  registerClientProperty_nil_rejected_aux p key

/-- C6: for a key that is neither built-in nor well-known and a non-nil value,
`registerClientProperty(key, value)` is exactly the registration of a static provider for
`value` under `"custom_" + key`: every entry other than that of `"custom_" + key`, the one of
the plain key among them, is what it was, and on success `"custom_" + key` holds a provider
whose value is `value`. -/
theorem registerClientProperty_custom (p : propertyRegistry) (key : String) (value : GoValue)
    (hB : key ∉ p.builtInPropertyTypes.keys) (hW : key ∉ p.wellKnownPropertyTypes.keys)
    (hv : value ≠ GoValue.nil) :
    registerClientProperty p key value =
      registerStaticProperty p (CustomPropertyPrefix ++ key) value ∧
    (registerClientProperty p key value).2.providers.get? key = p.providers.get? key ∧
    (∀ j, j ≠ CustomPropertyPrefix ++ key →
      (registerClientProperty p key value).2.providers.get? j = p.providers.get? j) ∧
    ((registerClientProperty p key value).1 = none →
      (registerClientProperty p key value).2.providers.get? (CustomPropertyPrefix ++ key) =
        some (staticPropertyProvider value) ∧
      (staticPropertyProvider value).Value = value) := by
  have hB2 := (GoMap.get?_eq_none_iff _ _).mpr hB
  have hW2 := (GoMap.get?_eq_none_iff _ _).mpr hW
  have e := registerClientProperty_of_not_reserved p key value hB2 hW2 hv
  have hother : ∀ j, j ≠ CustomPropertyPrefix ++ key →
      (registerClientProperty p key value).2.providers.get? j = p.providers.get? j := by
    intro j hj
    rw [e]
    rcases addProviderForKey_cases p (CustomPropertyPrefix ++ key)
      (staticPropertyProvider value) with ⟨err, h⟩ | h
    · rw [h]
    · rw [h]
      exact GoMap.get?_set_ne _ _ _ _ hj
  refine ⟨by rw [e]; rfl, hother key (ne_customPrefix_append key), hother, ?_⟩
  intro hok
  rw [e] at hok ⊢
  rcases addProviderForKey_cases p (CustomPropertyPrefix ++ key)
    (staticPropertyProvider value) with ⟨err, h⟩ | h
  · rw [h] at hok
    simp at hok
  · rw [h]
    exact ⟨GoMap.get?_set_self _ _ _, rfl⟩

/-- C6 at the sample registry: the client property `foo` goes under `custom_foo`. -/
theorem registerClientProperty_custom_witness :
    (registerClientProperty sampleRegistry "foo" (GoValue.int 1)).1 = none ∧
    (registerClientProperty sampleRegistry "foo" (GoValue.int 1)).2.providers.get? "foo" =
      sampleRegistry.providers.get? "foo" ∧
    (registerClientProperty sampleRegistry "foo" (GoValue.int 1)).2.providers.get?
      (CustomPropertyPrefix ++ "foo") = some (staticPropertyProvider (GoValue.int 1)) :=
  have h := registerClientProperty_custom sampleRegistry "foo" (GoValue.int 1)
    (by decide) (by decide) (by decide)
  have hok : (registerClientProperty sampleRegistry "foo" (GoValue.int 1)).1 = none := by
    decide
  ⟨hok, h.2.1, (h.2.2.2 hok).1⟩

/-- C7: with the tables of reserved names as the spec describes them, for every key that is
well-known and not built-in and every non-nil value, `registerClientProperty(key, value)`
returns an error and stores nothing when the kind of the value differs from the expected kind
of the well-known table; when the kind matches, the value is stored under the un-prefixed key
itself, and the entry of `"custom_" + key` is what it was. -/
theorem registerClientProperty_wellKnown_spec (p : propertyRegistry) (key : String)
    (value : GoValue) (kind : reflect.Kind)
    (htables : reservedTablesOk p.builtInPropertyTypes p.wellKnownPropertyTypes = true)
    (hB : key ∉ p.builtInPropertyTypes.keys)
    (hW : p.wellKnownPropertyTypes.get? key = some kind) (hv : value ≠ GoValue.nil) :
    (value.Kind ≠ kind →
      registerClientProperty p key value =
        (some ("property registered of wrong type (does not match expected type): " ++ key),
          p)) ∧
    (value.Kind = kind →
      registerClientProperty p key value =
        (none, { p with providers := p.providers.set key (staticPropertyProvider value) }) ∧
      (registerClientProperty p key value).2.providers.get? key =
        some (staticPropertyProvider value) ∧
      (staticPropertyProvider value).Value = value ∧
      (registerClientProperty p key value).2.providers.get? (CustomPropertyPrefix ++ key) =
        p.providers.get? (CustomPropertyPrefix ++ key)) := by
  have hcases := registerClientProperty_wellKnown_cases p key value kind hB hW hv
  have hres := reservedTableOk_get? _ (reservedTablesOk_right _ _ htables) key kind hW
  refine ⟨hcases.1, fun hk => ?_⟩
  have hstored := (hcases.2 hk).2.2.1 hres.1 hres.2.2
  refine ⟨hstored, ?_, rfl, ?_⟩
  · rw [hstored]
    exact GoMap.get?_set_self _ _ _
  · rw [hstored]
    exact GoMap.get?_set_ne _ _ _ _ (fun e => ne_customPrefix_append key e.symm)

/-- C7 at the sample registry: the boolean `user_signed_in` is stored under its own name, and
a string for it is refused. -/
theorem registerClientProperty_wellKnown_spec_witness :
    registerClientProperty sampleRegistry "user_signed_in" (GoValue.bool true) =
      (none, { sampleRegistry with
        providers := sampleRegistry.providers.set "user_signed_in"
          (staticPropertyProvider (GoValue.bool true)) }) ∧
    registerClientProperty sampleRegistry "user_signed_in" (GoValue.string "yes") =
      (some ("property registered of wrong type (does not match expected type): " ++
        "user_signed_in"), sampleRegistry) :=
  ⟨((registerClientProperty_wellKnown_spec sampleRegistry "user_signed_in" (GoValue.bool true)
      reflect.Kind.Bool (by decide) (by decide) (by decide) (by decide)).2 (by decide)).1,
    (registerClientProperty_wellKnown_spec sampleRegistry "user_signed_in"
      (GoValue.string "yes") reflect.Kind.Bool (by decide) (by decide) (by decide)
      (by decide)).1 (by decide)⟩

/-- C8: for a key that is empty or has a character outside `[A-Za-z0-9_]`, and every
provider, `addProviderForKey` returns the invalid-name error and leaves the registry as it
was: no provider is added or replaced. -/
theorem addProviderForKey_invalid_name (pr : propertyRegistry) (key : String)
    (pp : propertyProvider)
    (hkey : key = "" ∨ ∃ c ∈ key.data, ¬ (c.isAlphanum = true ∨ c = '_')) :
    addProviderForKey pr key pp = (some ("invalid property name: " ++ key), pr) := by
  have hinv : validPropertyName key = false := by
    rw [← Bool.not_eq_true, validPropertyName_eq_true_iff]
    rintro ⟨h1, -, h3⟩
    rcases hkey with h | ⟨c, hc, hbad⟩
    · exact h1 h
    · apply hbad
      have := h3 c hc
      rw [validPropertyRune_eq] at this
      simpa using this
  simp [addProviderForKey, hinv]

/-- C8 at the sample registry: a name with a dash is refused. -/
theorem addProviderForKey_invalid_name_witness :
    addProviderForKey sampleRegistry "custom_a-b" (staticPropertyProvider (GoValue.int 1)) =
      (some ("invalid property name: " ++ "custom_a-b"), sampleRegistry) :=
  addProviderForKey_invalid_name sampleRegistry "custom_a-b"
    (staticPropertyProvider (GoValue.int 1)) (Or.inr ⟨'-', by decide, by decide⟩)

/-- C9: with the tables of reserved names as the spec describes them, for every key of the
built-in or well-known table and every provider whose `Kind()` is not the expected kind of
the key (that of the built-in table when the key is there, else that of the well-known
table), `addProviderForKey` returns the wrong-type error and leaves the registry as it was:
the provider is not stored. -/
theorem addProviderForKey_wrong_kind_rejected (pr : propertyRegistry) (key : String)
    (pp : propertyProvider) (kind : reflect.Kind)
    (htables : reservedTablesOk pr.builtInPropertyTypes pr.wellKnownPropertyTypes = true)
    (hexp : pr.builtInPropertyTypes.get? key = some kind ∨
      (pr.builtInPropertyTypes.get? key = none ∧
        pr.wellKnownPropertyTypes.get? key = some kind))
    (hk : pp.Kind ≠ kind) :
    addProviderForKey pr key pp =
      (some ("Property registered of wrong type (does not match expected type): " ++ key),
        pr) ∧
    (addProviderForKey pr key pp).2.providers.get? key = pr.providers.get? key := by
  have hres : validPropertyName key = true ∧
      strings.HasPrefix key CustomPropertyPrefix = false ∧ kind ∈ validTypes := by
    rcases hexp with hb | ⟨-, hw⟩
    · exact reservedTableOk_get? _ (reservedTablesOk_left _ _ htables) key kind hb
    · exact reservedTableOk_get? _ (reservedTablesOk_right _ _ htables) key kind hw
  have hkind : expectedTypeForKey pr key = kind := by
    rcases hexp with hb | ⟨hb, hw⟩
    · exact expectedTypeForKey_of_builtIn pr key kind hb
    · exact expectedTypeForKey_of_wellKnown pr key kind hb hw
  have hne : kind ≠ reflect.Kind.Invalid := fun e =>
    invalid_not_mem_validTypes (e ▸ hres.2.2)
  have h : addProviderForKey pr key pp =
      (some ("Property registered of wrong type (does not match expected type): " ++ key),
        pr) := by
    simp [addProviderForKey, hres.1, hres.2.1, hkind, hne, hk]
  exact ⟨h, by rw [h]⟩

/-- C9 at the sample registry: an integer provider for the built-in string `platform` is
refused. -/
theorem addProviderForKey_wrong_kind_rejected_witness :
    addProviderForKey sampleRegistry "platform" (staticPropertyProvider (GoValue.int 1)) =
      (some ("Property registered of wrong type (does not match expected type): " ++
        "platform"), sampleRegistry) :=
  (addProviderForKey_wrong_kind_rejected sampleRegistry "platform"
    (staticPropertyProvider (GoValue.int 1)) reflect.Kind.String (by decide)
    (Or.inl (by decide)) (by decide)).1

/-- C10: re-registration succeeds. For a key that already has a provider and a provider `pp`
that `addProviderForKey` accepts for that key on a registry with the same tables and no
provider under the key, `addProviderForKey(key, pp)` returns no error, the registered names
are what they were, every other entry is untouched, and `propertyValue(key)` afterwards
returns the value of `pp`. -/
theorem addProviderForKey_reregister (p p0 : propertyRegistry) (key : String)
    (pp old : propertyProvider) (hcur : p.providers.get? key = some old)
    (hB : p0.builtInPropertyTypes = p.builtInPropertyTypes)
    (hW : p0.wellKnownPropertyTypes = p.wellKnownPropertyTypes)
    (_h0 : p0.providers.get? key = none)
    (hacc : (addProviderForKey p0 key pp).1 = none) :
    (addProviderForKey p key pp).1 = none ∧
    (addProviderForKey p key pp).2.providers.keys = p.providers.keys ∧
    (∀ j, j ≠ key → (addProviderForKey p key pp).2.providers.get? j = p.providers.get? j) ∧
    propertyValue (addProviderForKey p key pp).2 key = (pp.Value, none) := by
  have hok : (addProviderForKey p key pp).1 = none := by
    rw [← addProviderForKey_fst_congr p p0 key pp hB hW]
    exact hacc
  rcases addProviderForKey_cases p key pp with ⟨err, h⟩ | h
  · rw [h] at hok
    simp at hok
  · rw [h]
    refine ⟨rfl, ?_, ?_, ?_⟩
    · apply GoMap.keys_set_of_mem
      simp [GoMap.mem_keys_iff, hcur]
    · intro j hj
      exact GoMap.get?_set_ne _ _ _ _ hj
    · unfold propertyValue
      dsimp only
      rw [GoMap.get?_set_self]

/-- C10 at the sample registry: `custom_foo` holds 1 and is registered again with 5. -/
theorem addProviderForKey_reregister_witness :
    (addProviderForKey (registerClientProperty sampleRegistry "foo" (GoValue.int 1)).2
      "custom_foo" (staticPropertyProvider (GoValue.int 5))).1 = none ∧
    propertyValue
      (addProviderForKey (registerClientProperty sampleRegistry "foo" (GoValue.int 1)).2
        "custom_foo" (staticPropertyProvider (GoValue.int 5))).2 "custom_foo" =
      ((staticPropertyProvider (GoValue.int 5)).Value, none) :=
  have h := addProviderForKey_reregister
    (registerClientProperty sampleRegistry "foo" (GoValue.int 1)).2 sampleRegistry
    "custom_foo" (staticPropertyProvider (GoValue.int 5))
    (staticPropertyProvider (GoValue.int 1)) (by decide) rfl rfl (by decide) (by decide)
  ⟨h.1, h.2.2.2⟩

/-- C11: in the registry that any sequence of `registerClientProperty`,
`registerStaticProperty` and `registerLibPropertyProvider` calls, successful or failing,
leaves behind a fresh registry, every registered provider name that is in neither the
built-in nor the well-known table starts with `"custom_"`. -/
theorem reachable_names_custom (builtIn wellKnown : GoMap reflect.Kind)
    (staticFunctions staticConstants : GoMap GoValue) (calls : List registryCall)
    (name : String)
    (hname : name ∈ (runCalls (newPropertyRegistry builtIn wellKnown staticFunctions
      staticConstants) calls).providers.keys)
    (hB : name ∉ builtIn.keys) (hW : name ∉ wellKnown.keys) :
    ∃ rest : String, name = "custom_" ++ rest := by
  have hinv := registeredAsExpected_runCalls _ calls
    (registeredAsExpected_new builtIn wellKnown staticFunctions staticConstants)
  have htab := runCalls_tables
    (newPropertyRegistry builtIn wellKnown staticFunctions staticConstants) calls
  rw [GoMap.mem_keys_iff] at hname
  obtain ⟨pp, hpp⟩ := Option.isSome_iff_exists.mp hname
  rcases hinv name pp hpp with hc | ⟨hne, -⟩
  · exact (strings_HasPrefix_iff name CustomPropertyPrefix).mp hc
  · exfalso
    rcases mem_keys_of_expectedTypeForKey_ne _ name hne with hb | hw
    · rw [htab.1] at hb
      exact hB hb
    · rw [htab.2] at hw
      exact hW hw

/-- C11 at the sample tables: after four calls, two of which fail, the one name outside the
tables is `custom_foo`. -/
theorem reachable_names_custom_witness :
    (runCalls sampleRegistry sampleCalls).providers.keys = ["platform", "custom_foo"] ∧
    ∃ rest : String, "custom_foo" = "custom_" ++ rest :=
  ⟨by decide,
    reachable_names_custom sampleBuiltIn sampleWellKnown sampleFunctions sampleConstants
      sampleCalls "custom_foo" (by decide) (by decide) (by decide)⟩

/-- C12: with the tables of reserved names as the spec describes them, in the registry that
any sequence of `registerClientProperty`, `registerStaticProperty` and
`registerLibPropertyProvider` calls leaves behind a fresh registry, every registered provider
whose name has an expected kind declared in the built-in or well-known table is of exactly
that kind; so `validateExpectedProvider` never reports a wrong kind for such a name: it
reports no error, or the name has no provider and is required, and the error is the
missing-property one. -/
theorem reachable_kinds_match (builtIn wellKnown : GoMap reflect.Kind)
    (staticFunctions staticConstants : GoMap GoValue) (calls : List registryCall)
    (name : String) (kind : reflect.Kind)
    (htables : reservedTablesOk builtIn wellKnown = true)
    (hkind : builtIn.get? name = some kind ∨ wellKnown.get? name = some kind) :
    (∀ pp, (runCalls (newPropertyRegistry builtIn wellKnown staticFunctions staticConstants)
        calls).providers.get? name = some pp → pp.Kind = kind) ∧
    (∀ allowMissing,
      validateExpectedProvider
        (runCalls (newPropertyRegistry builtIn wellKnown staticFunctions staticConstants)
          calls) name kind allowMissing = none ∨
      ((runCalls (newPropertyRegistry builtIn wellKnown staticFunctions staticConstants)
          calls).providers.get? name = none ∧ allowMissing = false ∧
        validateExpectedProvider
          (runCalls (newPropertyRegistry builtIn wellKnown staticFunctions staticConstants)
            calls) name kind allowMissing =
          some ("missing required property: " ++ name))) := by
  have hinv := registeredAsExpected_runCalls _ calls
    (registeredAsExpected_new builtIn wellKnown staticFunctions staticConstants)
  have htab := runCalls_tables
    (newPropertyRegistry builtIn wellKnown staticFunctions staticConstants) calls
  have hB : (runCalls (newPropertyRegistry builtIn wellKnown staticFunctions staticConstants)
      calls).builtInPropertyTypes = builtIn := htab.1
  have hW : (runCalls (newPropertyRegistry builtIn wellKnown staticFunctions staticConstants)
      calls).wellKnownPropertyTypes = wellKnown := htab.2
  have hnotcustom : strings.HasPrefix name CustomPropertyPrefix = false := by
    rcases hkind with hb | hw
    · exact (reservedTableOk_get? _ (reservedTablesOk_left _ _ htables) name kind hb).2.1
    · exact (reservedTableOk_get? _ (reservedTablesOk_right _ _ htables) name kind hw).2.1
  have hexp : expectedTypeForKey
      (runCalls (newPropertyRegistry builtIn wellKnown staticFunctions staticConstants) calls)
      name = kind := by
    apply expectedTypeForKey_of_reserved
    · rw [hB, hW]
      exact htables
    · rw [hB, hW]
      exact hkind
  have hk : ∀ pp, (runCalls (newPropertyRegistry builtIn wellKnown staticFunctions
      staticConstants) calls).providers.get? name = some pp → pp.Kind = kind := by
    intro pp hpp
    rcases hinv name pp hpp with hc | ⟨-, he⟩
    · rw [hnotcustom] at hc
      exact absurd hc (by simp)
    · rw [he, hexp]
  refine ⟨hk, fun allowMissing => ?_⟩
  unfold validateExpectedProvider
  cases hpp : (runCalls (newPropertyRegistry builtIn wellKnown staticFunctions
      staticConstants) calls).providers.get? name with
  | none => cases allowMissing <;> simp
  | some pp => simp [hk pp hpp]

/-- C12 at the sample tables: after four calls, one of which offers an integer for
`platform`, the provider of the built-in `platform` is of kind String. -/
theorem reachable_kinds_match_witness :
    (runCalls sampleRegistry sampleCalls).providers.get? "platform" =
      some (staticPropertyProvider (GoValue.string "ios")) ∧
    (staticPropertyProvider (GoValue.string "ios")).Kind = reflect.Kind.String ∧
    validateExpectedProvider (runCalls sampleRegistry sampleCalls) "platform"
      reflect.Kind.String false = none :=
  have h := reachable_kinds_match sampleBuiltIn sampleWellKnown sampleFunctions
    sampleConstants sampleCalls "platform" reflect.Kind.String (by decide)
    (Or.inl (by decide))
  ⟨by decide, h.1 _ (by decide), by decide⟩

/-- C13: `buildPropertyMapForCondition` never returns an error; the keys of the map it
returns are exactly the distinct names of `fields.Variables`; and each of them is bound to
the value `propertyValue` returns for it, or to nil when `propertyValue` reports the property
as not found. -/
theorem buildPropertyMapForCondition_spec (p : propertyRegistry) (fields : ConditionFields) :
    (buildPropertyMapForCondition p fields).2 = none ∧
    (∀ k, k ∈ (buildPropertyMapForCondition p fields).1.keys ↔ k ∈ fields.Variables) ∧
    (buildPropertyMapForCondition p fields).1.keys.Perm fields.Variables.dedup ∧
    (∀ k, k ∈ fields.Variables →
      (buildPropertyMapForCondition p fields).1.get? k =
        some (if (propertyValue p k).2 = some errPropertyNotFound then GoValue.nil
          else (propertyValue p k).1)) := by
  have h := buildPropertyMapLoop_spec p fields.Variables GoMap.empty
  have hget : ∀ k, (buildPropertyMapForCondition p fields).1.get? k =
      if k ∈ fields.Variables then
        some (if (propertyValue p k).2 = some errPropertyNotFound then GoValue.nil
          else (propertyValue p k).1)
      else none := by
    intro k
    exact h.2 k
  have hmem : ∀ k, k ∈ (buildPropertyMapForCondition p fields).1.keys ↔
      k ∈ fields.Variables := by
    intro k
    rw [GoMap.mem_keys_iff, hget k]
    by_cases hk : k ∈ fields.Variables <;> simp [hk]
  refine ⟨h.1, hmem, ?_, ?_⟩
  · apply (List.perm_ext_iff_of_nodup (buildPropertyMapForCondition p fields).1.nodup
      (List.nodup_dedup _)).mpr
    intro k
    rw [List.mem_dedup]
    exact hmem k
  · intro k hk
    rw [hget k, if_pos hk]

/-- C13 at the sample registry with the client property `foo`: the map binds `foo` to 1 and
`missing` to nil, and nothing else. -/
theorem buildPropertyMapForCondition_spec_witness :
    (buildPropertyMapForCondition sampleValidRegistry sampleFields).1.get? "foo" =
      some (GoValue.int 1) ∧
    (buildPropertyMapForCondition sampleValidRegistry sampleFields).1.get? "missing" =
      some GoValue.nil ∧
    (buildPropertyMapForCondition sampleValidRegistry sampleFields).1.keys =
      ["foo", "missing"] :=
  have h := buildPropertyMapForCondition_spec sampleValidRegistry sampleFields
  ⟨(h.2.2.2 "foo" (by decide)).trans (by decide),
    (h.2.2.2 "missing" (by decide)).trans (by decide), by decide⟩

/-- C14: `nilMethodsForUnknownFunctions` returns no error and one stub for each entry of
`fields.Methods` that is neither the name of a static helper function nor a registered
dynamic function name, in the order of the entries, and none for a known name; the function
of every stub returns nil and no error for every list of arguments. -/
theorem nilMethodsForUnknownFunctions_spec (p : propertyRegistry) (fields : ConditionFields)
    (staticNames : List String) (hstatic : staticNames.Perm p.mapFunctions.keys) :
    (nilMethodsForUnknownFunctions p fields staticNames).2 = none ∧
    (nilMethodsForUnknownFunctions p fields staticNames).1 =
      (fields.Methods.filter
        (fun m => decide (m ∉ p.mapFunctions.keys ∧ m ∉ p.dynamicFunctionNames))).map
        (fun m => exprOption.Function m nilFunction []) ∧
    (∀ params, nilFunction params = (GoValue.nil, none)) := by
  refine ⟨rfl, ?_, fun _ => rfl⟩
  unfold nilMethodsForUnknownFunctions
  dsimp only
  rw [nilMethodsLoop_eq]
  congr 1
  apply List.filter_congr
  intro m _
  simp [allFunctionNamesRegistered, hstatic.mem_iff]

/-- C14 at the sample registry: `versionGreaterThan` is a static helper and gets no stub,
`futureFunction` is unknown and gets one. -/
theorem nilMethodsForUnknownFunctions_spec_witness :
    (nilMethodsForUnknownFunctions sampleRegistry sampleFields ["versionGreaterThan"]).1 =
      [exprOption.Function "futureFunction" nilFunction []] :=
  (nilMethodsForUnknownFunctions_spec sampleRegistry sampleFields ["versionGreaterThan"]
    (List.Perm.refl _)).2.1.trans rfl

/-- C15: when identifier extraction, compilation and execution all succeed and the result
is `r`, `evaluateCondition` returns `(r, nil)` for a boolean `r` and `(false, nil)` for any
other `r`, nil among them; in both cases the error is nil. -/
theorem evaluateCondition_result {Program : Type} (lib : exprLibrary Program)
    (p : propertyRegistry) (condition : Condition) (staticNames : List String)
    (fields : ConditionFields) (program : Program) (r : GoValue)
    (hfields : lib.ExtractIdentifiers condition = .returns (.ok fields))
    (hprogram : lib.CompileWithEnv condition (evaluateConditionOptions p fields staticNames) =
      .returns (.ok program))
    (hrun : lib.Run program (evaluateConditionEnv p fields) = .returns (.ok r)) :
    (∀ b, r = GoValue.bool b → evaluateCondition lib p condition staticNames = (b, none)) ∧
    ((∀ b, r ≠ GoValue.bool b) →
      evaluateCondition lib p condition staticNames = (false, none)) ∧
    (evaluateCondition lib p condition staticNames).2 = none := by
  have hbuild : (buildPropertyMapForCondition p fields).2 = none :=
    (buildPropertyMapLoop_spec p fields.Variables GoMap.empty).1
  have hnil : (nilMethodsForUnknownFunctions p fields staticNames).2 = none := rfl
  have hbody : evaluateConditionBody lib p condition staticNames =
      if !(assertBool r).2 then .returns (false, none)
      else .returns ((assertBool r).1, none) := by
    unfold evaluateConditionBody
    rw [hfields]
    dsimp only
    rw [hbuild]
    dsimp only
    rw [hnil]
    dsimp only
    rw [hprogram]
    dsimp only
    rw [hrun]
  unfold evaluateCondition
  rw [hbody]
  refine ⟨?_, ?_, ?_⟩
  · intro b hb
    subst hb
    rfl
  · intro hnb
    cases r with
    | bool b => exact absurd rfl (hnb b)
    | _ => rfl
  · cases r <;> rfl

/-- C15 at the sample library: the condition `true` evaluates to `(true, nil)`, and the
condition `3 + 4`, whose result is the integer 7, to `(false, nil)`. -/
theorem evaluateCondition_result_witness :
    evaluateCondition sampleLibrary sampleRegistry { conditionString := "true" }
      ["versionGreaterThan"] = (true, none) ∧
    evaluateCondition sampleLibrary sampleRegistry { conditionString := "3 + 4" }
      ["versionGreaterThan"] = (false, none) :=
  ⟨(evaluateCondition_result sampleLibrary sampleRegistry { conditionString := "true" }
      ["versionGreaterThan"] sampleFields "true" (GoValue.bool true) rfl rfl rfl).1 true rfl,
    (evaluateCondition_result sampleLibrary sampleRegistry { conditionString := "3 + 4" }
      ["versionGreaterThan"] sampleFields "3 + 4" (GoValue.int 7) rfl rfl rfl).2.1
      (fun b h => by cases h)⟩

/-- C16: a panic in a stage of `evaluateCondition` does not reach the caller. When the
identifier extraction, the compilation or the execution panics, and more generally whenever
the body of the method panics, `evaluateCondition` returns `false` and a non-nil error, the
one that prints the panic value. -/
theorem evaluateCondition_recovers {Program : Type} (lib : exprLibrary Program)
    (p : propertyRegistry) (condition : Condition) (staticNames : List String) :
    (∀ r, lib.ExtractIdentifiers condition = .panics r →
      evaluateCondition lib p condition staticNames =
        (false, some ("panic in evaluateCondition: " ++ r))) ∧
    (∀ fields r, lib.ExtractIdentifiers condition = .returns (.ok fields) →
      lib.CompileWithEnv condition (evaluateConditionOptions p fields staticNames) =
        .panics r →
      evaluateCondition lib p condition staticNames =
        (false, some ("panic in evaluateCondition: " ++ r))) ∧
    (∀ fields program r, lib.ExtractIdentifiers condition = .returns (.ok fields) →
      lib.CompileWithEnv condition (evaluateConditionOptions p fields staticNames) =
        .returns (.ok program) →
      lib.Run program (evaluateConditionEnv p fields) = .panics r →
      evaluateCondition lib p condition staticNames =
        (false, some ("panic in evaluateCondition: " ++ r))) ∧
    (∀ r, evaluateConditionBody lib p condition staticNames = .panics r →
      evaluateCondition lib p condition staticNames =
        (false, some ("panic in evaluateCondition: " ++ r)) ∧
      (evaluateCondition lib p condition staticNames).2 ≠ none) := by
  have hgen : ∀ r, evaluateConditionBody lib p condition staticNames = .panics r →
      evaluateCondition lib p condition staticNames =
        (false, some ("panic in evaluateCondition: " ++ r)) := by
    intro r h
    unfold evaluateCondition
    rw [h]
    rfl
  refine ⟨?_, ?_, ?_, ?_⟩
  · intro r h
    apply hgen
    unfold evaluateConditionBody
    rw [h]
  · intro fields r hfields hprogram
    apply hgen
    have hbuild : (buildPropertyMapForCondition p fields).2 = none :=
      (buildPropertyMapLoop_spec p fields.Variables GoMap.empty).1
    have hnil : (nilMethodsForUnknownFunctions p fields staticNames).2 = none := rfl
    unfold evaluateConditionBody
    rw [hfields]
    dsimp only
    rw [hbuild]
    dsimp only
    rw [hnil]
    dsimp only
    rw [hprogram]
  · intro fields program r hfields hprogram hrun
    apply hgen
    have hbuild : (buildPropertyMapForCondition p fields).2 = none :=
      (buildPropertyMapLoop_spec p fields.Variables GoMap.empty).1
    have hnil : (nilMethodsForUnknownFunctions p fields staticNames).2 = none := rfl
    unfold evaluateConditionBody
    rw [hfields]
    dsimp only
    rw [hbuild]
    dsimp only
    rw [hnil]
    dsimp only
    rw [hprogram]
    dsimp only
    rw [hrun]
  · intro r h
    rw [hgen r h]
    exact ⟨rfl, by simp⟩

/-- C16 at the sample library: a panic of the parser and a division by zero at run time both
come back as `false` and an error. -/
theorem evaluateCondition_recovers_witness :
    evaluateCondition sampleLibrary sampleRegistry { conditionString := "panic" }
      ["versionGreaterThan"] = (false, some ("panic in evaluateCondition: " ++ "runtime error")) ∧
    evaluateCondition sampleLibrary sampleRegistry { conditionString := "1/0" }
      ["versionGreaterThan"] =
      (false, some ("panic in evaluateCondition: " ++ "integer divide by zero")) :=
  ⟨(evaluateCondition_recovers sampleLibrary sampleRegistry { conditionString := "panic" }
      ["versionGreaterThan"]).1 "runtime error" rfl,
    (evaluateCondition_recovers sampleLibrary sampleRegistry { conditionString := "1/0" }
      ["versionGreaterThan"]).2.2.1 sampleFields "1/0" "integer divide by zero" rfl rfl rfl⟩

/-- C17: a condition that calls a registered function with the wrong arity or argument kind
is an error of `evaluateCondition`. The signature of every function that
`RegisterDynamicFunctions` has registered is among the options the condition is compiled
with, no registered name gets a nil stub that would answer in its place, and when the
compilation against these options or the execution reports an error, `evaluateCondition`
returns `false` and that error, which is non-nil: the result is neither `(false, nil)` nor
`(true, nil)`. -/
theorem evaluateCondition_signature_error_surfaces {Program : Type}
    (lib : exprLibrary Program) (pr : propertyRegistry)
    (order : List (String × ConditionDynamicFunction)) (condition : Condition)
    (staticNames : List String) (fields : ConditionFields)
    (hfields : lib.ExtractIdentifiers condition = .returns (.ok fields)) :
    (∀ e ∈ order,
      e.1 ∈ (RegisterDynamicFunctions pr order).2.dynamicFunctionNames ∧
      exprOption.Function e.1 e.2.Function e.2.Types ∈
        evaluateConditionOptions (RegisterDynamicFunctions pr order).2 fields staticNames) ∧
    (∀ k ∈ (RegisterDynamicFunctions pr order).2.dynamicFunctionNames, ∀ fn types,
      exprOption.Function k fn types ∉
        (nilMethodsForUnknownFunctions (RegisterDynamicFunctions pr order).2 fields
          staticNames).1) ∧
    (∀ err,
      lib.CompileWithEnv condition
        (evaluateConditionOptions (RegisterDynamicFunctions pr order).2 fields staticNames) =
        .returns (.error err) →
      evaluateCondition lib (RegisterDynamicFunctions pr order).2 condition staticNames =
        (false, some err)) ∧
    (∀ program err,
      lib.CompileWithEnv condition
        (evaluateConditionOptions (RegisterDynamicFunctions pr order).2 fields staticNames) =
        .returns (.ok program) →
      lib.Run program (evaluateConditionEnv (RegisterDynamicFunctions pr order).2 fields) =
        .returns (.error err) →
      evaluateCondition lib (RegisterDynamicFunctions pr order).2 condition staticNames =
        (false, some err)) := by
  have hfwd := evaluateCondition_forwards_error lib (RegisterDynamicFunctions pr order).2
    condition staticNames fields hfields
  have hreg : (RegisterDynamicFunctions pr order).2 =
      { pr with
        dynamicFunctionNames := pr.dynamicFunctionNames ++ order.map Prod.fst
        dynamicFunctionOps := pr.dynamicFunctionOps ++
          order.map (fun e => exprOption.Function e.1 e.2.Function e.2.Types) } :=
    RegisterDynamicFunctionsLoop_spec pr order
  refine ⟨?_, ?_, hfwd.1, hfwd.2⟩
  · intro e he
    rw [hreg]
    constructor
    · exact List.mem_append_right _ (List.mem_map_of_mem Prod.fst he)
    · simp only [evaluateConditionOptions, List.nil_append, List.mem_append]
      exact Or.inl (Or.inl (Or.inr (List.mem_map_of_mem
        (fun e => exprOption.Function e.1 e.2.Function e.2.Types) he)))
  · intro k hk fn types hmem
    unfold nilMethodsForUnknownFunctions at hmem
    dsimp only at hmem
    rw [nilMethodsLoop_eq, List.mem_map] at hmem
    obtain ⟨m, hm, heq⟩ := hmem
    have hmk : m = k := by
      injection heq
    rw [List.mem_filter] at hm
    have hnot : m ∉ allFunctionNamesRegistered (RegisterDynamicFunctions pr order).2
        staticNames := by simpa using hm.2
    apply hnot
    rw [hmk]
    simp only [allFunctionNamesRegistered, List.nil_append, List.mem_append]
    exact Or.inr hk

/-- C17 at the sample registry with `eventCount` and `eventCountWithLimit` registered, and a
library that resolves calls through its options: `eventCount()` is an error, and so are a
second argument, an integer argument and `eventCountWithLimit` with one or no argument or two
strings; a well-formed call is evaluated; and on the registry with nothing registered the
same `eventCount()` is answered by a nil stub and gives `(false, nil)`. -/
theorem evaluateCondition_signature_error_surfaces_witness :
    evaluateCondition sampleCallLibrary sampleEventRegistry
      { conditionString := "eventCount() > 1" } ["versionGreaterThan"] =
      (false, some "eventCount: invalid arguments") ∧
    evaluateCondition sampleCallLibrary sampleEventRegistry
      { conditionString := "eventCount('test', 'test2') > 1" } ["versionGreaterThan"] =
      (false, some "eventCount: invalid arguments") ∧
    evaluateCondition sampleCallLibrary sampleEventRegistry
      { conditionString := "eventCount(1) > 1" } ["versionGreaterThan"] =
      (false, some "eventCount: invalid arguments") ∧
    evaluateCondition sampleCallLibrary sampleEventRegistry
      { conditionString := "eventCount('test', 1) > 1" } ["versionGreaterThan"] =
      (false, some "eventCount: invalid arguments") ∧
    evaluateCondition sampleCallLibrary sampleEventRegistry
      { conditionString := "eventCountWithLimit('test') > 1" } ["versionGreaterThan"] =
      (false, some "eventCountWithLimit: invalid arguments") ∧
    evaluateCondition sampleCallLibrary sampleEventRegistry
      { conditionString := "eventCountWithLimit('test', 'test2') > 1" }
      ["versionGreaterThan"] = (false, some "eventCountWithLimit: invalid arguments") ∧
    evaluateCondition sampleCallLibrary sampleEventRegistry
      { conditionString := "eventCountWithLimit() > 1" } ["versionGreaterThan"] =
      (false, some "eventCountWithLimit: invalid arguments") ∧
    evaluateCondition sampleCallLibrary sampleEventRegistry
      { conditionString := "eventCount('test') > 1" } ["versionGreaterThan"] =
      (true, none) ∧
    evaluateCondition sampleCallLibrary sampleRegistry
      { conditionString := "eventCount() > 1" } ["versionGreaterThan"] = (false, none) :=
  ⟨(evaluateCondition_signature_error_surfaces sampleCallLibrary sampleRegistry
      sampleEventFuncs { conditionString := "eventCount() > 1" } ["versionGreaterThan"]
      { Variables := [], Methods := ["eventCount"] } rfl).2.2.2
      (sampleEventCount.Function, []) "eventCount: invalid arguments" rfl rfl,
    by decide, by decide, by decide, by decide, by decide, by decide, by decide, by decide⟩

/-- C18: `t.Validate()` is true if and only if `t.EventName` and `t.ActionName` are both
non-empty; it equals `t.ValidateReturningUserReadableIssue() == ""`; and when `EventName` is
empty the issue reported is the missing-event one, whatever `ActionName` is. -/
theorem Trigger_Validate_spec (t : Trigger) :
    (t.Validate = true ↔ t.EventName ≠ "" ∧ t.ActionName ≠ "") ∧
    t.Validate = decide (t.ValidateReturningUserReadableIssue = "") ∧
    (t.EventName = "" →
      t.ValidateReturningUserReadableIssue = "All triggers require an event") := by
  refine ⟨?_, ?_, ?_⟩
  · unfold Trigger.Validate Trigger.ValidateReturningUserReadableIssue
    by_cases h1 : t.EventName = ""
    · simp [h1]
    · by_cases h2 : t.ActionName = ""
      · simp [h1, h2]
      · simp [h1, h2]
  · rfl
  · intro h
    simp [Trigger.ValidateReturningUserReadableIssue, h]

/-- C18 at a trigger with no event name. -/
theorem Trigger_Validate_spec_witness :
    ({ EventName := "", ActionName := "show_banner" } : Trigger).Validate = false ∧
    ({ EventName := "", ActionName := "show_banner" } :
      Trigger).ValidateReturningUserReadableIssue = "All triggers require an event" :=
  ⟨by decide,
    (Trigger_Validate_spec { EventName := "", ActionName := "show_banner" }).2.2 rfl⟩

/-- C19: `UnmarshalJSON` returns an error when the JSON does not decode and when the decoded
`eventName` or `actionName` is empty (a missing field decodes to the empty string); whenever
it returns nil, the trigger carries the decoded `eventName` and `actionName` and satisfies
`Validate()`; and it returns nil exactly when the input decodes to two non-empty names. -/
theorem Trigger_UnmarshalJSON_spec (jsonUnmarshal : List Nat → Except String jsonTrigger)
    (t : Trigger) (data : List Nat) :
    (∀ err, jsonUnmarshal data = .error err →
      (Trigger.UnmarshalJSON jsonUnmarshal t data).1 ≠ none) ∧
    (∀ jt, jsonUnmarshal data = .ok jt → jt.EventName = "" ∨ jt.ActionName = "" →
      (Trigger.UnmarshalJSON jsonUnmarshal t data).1 ≠ none) ∧
    ((Trigger.UnmarshalJSON jsonUnmarshal t data).1 = none →
      ∃ jt, jsonUnmarshal data = .ok jt ∧
        (Trigger.UnmarshalJSON jsonUnmarshal t data).2.EventName = jt.EventName ∧
        (Trigger.UnmarshalJSON jsonUnmarshal t data).2.ActionName = jt.ActionName ∧
        (Trigger.UnmarshalJSON jsonUnmarshal t data).2.Validate = true) ∧
    ((Trigger.UnmarshalJSON jsonUnmarshal t data).1 = none ↔
      ∃ jt, jsonUnmarshal data = .ok jt ∧ jt.EventName ≠ "" ∧ jt.ActionName ≠ "") := by
  unfold Trigger.UnmarshalJSON
  cases h : jsonUnmarshal data with
  | error e =>
    simp [NewUserPresentableErrorWSource]
  | ok jt =>
    by_cases h1 : jt.EventName = ""
    · simp [Trigger.ValidateReturningUserReadableIssue, NewUserPresentableError, h1]
    · by_cases h2 : jt.ActionName = ""
      · simp [Trigger.ValidateReturningUserReadableIssue, NewUserPresentableError, h1, h2]
      · simp [Trigger.ValidateReturningUserReadableIssue, Trigger.Validate,
          NewUserPresentableError, h1, h2]

/-- C19 at the sample decoder: a trigger without names is refused, a complete one is
accepted and carried. -/
theorem Trigger_UnmarshalJSON_spec_witness :
    (Trigger.UnmarshalJSON sampleJsonUnmarshal { EventName := "", ActionName := "" } [2]).1 ≠
      none ∧
    ∃ jt, sampleJsonUnmarshal [1] = .ok jt ∧
      (Trigger.UnmarshalJSON sampleJsonUnmarshal { EventName := "", ActionName := "" }
        [1]).2.EventName = jt.EventName ∧
      (Trigger.UnmarshalJSON sampleJsonUnmarshal { EventName := "", ActionName := "" }
        [1]).2.ActionName = jt.ActionName ∧
      (Trigger.UnmarshalJSON sampleJsonUnmarshal { EventName := "", ActionName := "" }
        [1]).2.Validate = true :=
  ⟨(Trigger_UnmarshalJSON_spec sampleJsonUnmarshal { EventName := "", ActionName := "" }
      [2]).2.1 { EventName := "", ActionName := "" } rfl (Or.inl rfl),
    (Trigger_UnmarshalJSON_spec sampleJsonUnmarshal { EventName := "", ActionName := "" }
      [1]).2.2.1 (by decide)⟩

/-- C20: `RegisterDynamicFunctions(newFuncs)` returns nil; it appends the keys of
`newFuncs`, each once, to `dynamicFunctionNames` and one option per key to
`dynamicFunctionOps`, after the entries already there, so two lists of the same length stay
of the same length, and it changes nothing else; on a fresh registry the registered names are
a permutation of the keys of `newFuncs`; and every key is then among the names
`allFunctionNamesRegistered` reports. -/
theorem RegisterDynamicFunctions_spec (pr : propertyRegistry)
    (newFuncs : GoMap ConditionDynamicFunction)
    (order : List (String × ConditionDynamicFunction))
    (horder : order.Perm newFuncs.entries) (staticNames : List String) :
    (RegisterDynamicFunctions pr order).1 = none ∧
    (RegisterDynamicFunctions pr order).2 =
      { pr with
        dynamicFunctionNames := pr.dynamicFunctionNames ++ order.map Prod.fst
        dynamicFunctionOps := pr.dynamicFunctionOps ++
          order.map (fun e => exprOption.Function e.1 e.2.Function e.2.Types) } ∧
    (order.map Prod.fst).Perm newFuncs.keys ∧
    (order.map Prod.fst).Nodup ∧
    (pr.dynamicFunctionNames.length = pr.dynamicFunctionOps.length →
      (RegisterDynamicFunctions pr order).2.dynamicFunctionNames.length =
        (RegisterDynamicFunctions pr order).2.dynamicFunctionOps.length) ∧
    (pr.dynamicFunctionNames = [] →
      (RegisterDynamicFunctions pr order).2.dynamicFunctionNames.Perm newFuncs.keys) ∧
    (∀ k, k ∈ newFuncs.keys →
      k ∈ allFunctionNamesRegistered (RegisterDynamicFunctions pr order).2 staticNames) := by
  have hspec := RegisterDynamicFunctionsLoop_spec pr order
  have hperm : (order.map Prod.fst).Perm newFuncs.keys := horder.map Prod.fst
  unfold RegisterDynamicFunctions
  rw [hspec]
  refine ⟨rfl, rfl, hperm, hperm.nodup_iff.mpr newFuncs.nodup, ?_, ?_, ?_⟩
  · intro hlen
    simp [hlen]
  · intro hnil
    simp only [hnil, List.nil_append]
    exact hperm
  · intro k hk
    simp only [allFunctionNamesRegistered, List.nil_append, List.mem_append]
    exact Or.inr (Or.inr (hperm.mem_iff.mpr hk))

/-- C20 at a fresh registry and two dynamic functions visited in the reverse order. -/
theorem RegisterDynamicFunctions_spec_witness :
    (RegisterDynamicFunctions sampleRegistry sampleNewFuncsOrder).1 = none ∧
    (RegisterDynamicFunctions sampleRegistry sampleNewFuncsOrder).2.dynamicFunctionNames.Perm
      sampleNewFuncs.keys ∧
    "eventCount" ∈ allFunctionNamesRegistered
      (RegisterDynamicFunctions sampleRegistry sampleNewFuncsOrder).2 ["versionGreaterThan"] :=
  have h := RegisterDynamicFunctions_spec sampleRegistry sampleNewFuncs sampleNewFuncsOrder
    (List.Perm.swap _ _ _) ["versionGreaterThan"]
  ⟨h.1, h.2.2.2.2.2.1 rfl, h.2.2.2.2.2.2 "eventCount" (by decide)⟩

/-- C21: `addProviderForKey(key, pp)` returns no error if and only if `validPropertyName(key)`
holds, and `key` starts with `"custom_"` or has an expected kind in the tables (that of the
built-in table when the key is there, else that of the well-known table) equal to
`pp.Kind()`, and `pp.Kind()` is one of Bool, String, Int and Float64; on success the registry
is the previous one with `key` bound to `pp`, every other entry being what it was. -/
theorem addProviderForKey_ok_iff (pr : propertyRegistry) (key : String)
    (pp : propertyProvider) :
    ((addProviderForKey pr key pp).1 = none ↔
      validPropertyName key = true ∧
      ((∃ rest : String, key = "custom_" ++ rest) ∨
        ∃ kind, (pr.builtInPropertyTypes.get? key = some kind ∨
          (pr.builtInPropertyTypes.get? key = none ∧
            pr.wellKnownPropertyTypes.get? key = some kind)) ∧ pp.Kind = kind) ∧
      pp.Kind ∈ [reflect.Kind.Bool, reflect.Kind.String, reflect.Kind.Int,
        reflect.Kind.Float64]) ∧
    ((addProviderForKey pr key pp).1 = none →
      (addProviderForKey pr key pp).2 = { pr with providers := pr.providers.set key pp } ∧
      (addProviderForKey pr key pp).2.providers.get? key = some pp ∧
      ∀ j, j ≠ key → (addProviderForKey pr key pp).2.providers.get? j = pr.providers.get? j) := by
  constructor
  · rw [addProviderForKey_fst_eq_none_iff]
    constructor
    · rintro ⟨hv, hor, hmem⟩
      refine ⟨hv, ?_, hmem⟩
      rcases hor with hc | ⟨hne, he⟩
      · exact Or.inl ((strings_HasPrefix_iff key CustomPropertyPrefix).mp hc)
      · exact Or.inr ⟨expectedTypeForKey pr key,
          (expectedTypeForKey_eq_iff pr key _ hne).mp rfl, he⟩
    · rintro ⟨hv, hor, hmem⟩
      refine ⟨hv, ?_, hmem⟩
      rcases hor with hc | ⟨kind, htab, hk⟩
      · exact Or.inl ((strings_HasPrefix_iff key CustomPropertyPrefix).mpr hc)
      · have hne : kind ≠ reflect.Kind.Invalid := by
          intro e
          rw [hk, e] at hmem
          exact invalid_not_mem_validTypes hmem
        have hexp := (expectedTypeForKey_eq_iff pr key kind hne).mpr htab
        exact Or.inr ⟨by rw [hexp]; exact hne, by rw [hexp]; exact hk⟩
  · intro hok
    rcases addProviderForKey_cases pr key pp with ⟨err, h⟩ | h
    · rw [h] at hok
      simp at hok
    · rw [h]
      exact ⟨rfl, GoMap.get?_set_self _ _ _, fun j hj => GoMap.get?_set_ne _ _ _ _ hj⟩

/-- C21 at the sample registry: a string provider for the built-in `platform` is accepted
and stored. -/
theorem addProviderForKey_ok_iff_witness :
    (addProviderForKey sampleRegistry "platform"
      (staticPropertyProvider (GoValue.string "ios"))).1 = none ∧
    (addProviderForKey sampleRegistry "platform"
      (staticPropertyProvider (GoValue.string "ios"))).2.providers.get? "platform" =
      some (staticPropertyProvider (GoValue.string "ios")) :=
  have h := addProviderForKey_ok_iff sampleRegistry "platform"
    (staticPropertyProvider (GoValue.string "ios"))
  have hok : (addProviderForKey sampleRegistry "platform"
      (staticPropertyProvider (GoValue.string "ios"))).1 = none :=
    h.1.mpr ⟨by decide, Or.inr ⟨reflect.Kind.String, Or.inl (by decide), rfl⟩, by decide⟩
  ⟨hok, (h.2 hok).2.1⟩

/-- C22: registration is atomic on failure. Whenever `addProviderForKey`,
`registerStaticProperty`, `registerLibPropertyProvider` or `registerClientProperty` returns
an error, the registry, and so its providers map, is exactly what it was before the call. -/
theorem registration_atomic_on_failure (p : propertyRegistry) (key : String) :
    (∀ pp, (addProviderForKey p key pp).1 ≠ none → (addProviderForKey p key pp).2 = p) ∧
    (∀ value, (registerStaticProperty p key value).1 ≠ none →
      (registerStaticProperty p key value).2 = p) ∧
    (∀ dpp, (registerLibPropertyProvider p key dpp).1 ≠ none →
      (registerLibPropertyProvider p key dpp).2 = p) ∧
    (∀ value, (registerClientProperty p key value).1 ≠ none →
      (registerClientProperty p key value).2 = p) := by
  have hadd : ∀ k pp, (addProviderForKey p k pp).1 ≠ none → (addProviderForKey p k pp).2 = p := by
    intro k pp hne
    rcases addProviderForKey_cases p k pp with ⟨err, h⟩ | h
    · rw [h]
    · rw [h] at hne
      exact absurd rfl hne
  refine ⟨hadd key, fun value => hadd key _, fun dpp => hadd key _, ?_⟩
  intro value hne
  rcases runCall_cases p (registryCall.registerClientProperty key value) with
    ⟨err, h⟩ | ⟨k, pp, h⟩
  · have h2 : registerClientProperty p key value = (some err, p) := h
    rw [h2]
  · have h2 : registerClientProperty p key value = addProviderForKey p k pp := h
    rw [h2] at hne ⊢
    exact hadd k pp hne

/-- C22 at the sample registry: an integer for the built-in string `platform` is refused by
`registerStaticProperty`, and the registry is the one before the call. -/
theorem registration_atomic_on_failure_witness :
    (registerStaticProperty sampleRegistry "platform" (GoValue.int 3)).1 ≠ none ∧
    (registerStaticProperty sampleRegistry "platform" (GoValue.int 3)).2 = sampleRegistry :=
  ⟨by decide,
    (registration_atomic_on_failure sampleRegistry "platform").2.1 (GoValue.int 3)
      (by decide)⟩

/-- C23: `validPropertyName(name)` is true if and only if `name` is not empty, is not exactly
`"custom_"`, and every character of it is an ASCII letter, an ASCII digit or an underscore.
`registerClientProperty("", v)` fails for every `v` and leaves the registry as it was: the
prefixed key is the bare prefix, which is not a valid name, and that is the error returned
when the empty name is in neither table and `v` is not nil. -/
theorem validPropertyName_iff (name : String) :
    (validPropertyName name = true ↔
      name ≠ "" ∧ name ≠ "custom_" ∧
      ∀ c ∈ name.data, c.isAlpha = true ∨ c.isDigit = true ∨ c = '_') ∧
    (∀ p v, ∃ err, registerClientProperty p "" v = (some err, p)) ∧
    ("custom_" ++ "" = "custom_" ∧ validPropertyName "custom_" = false) ∧
    (∀ p v, p.builtInPropertyTypes.get? "" = none → p.wellKnownPropertyTypes.get? "" = none →
      v ≠ GoValue.nil →
      registerClientProperty p "" v = (some ("invalid property name: " ++ "custom_"), p)) := by
  have h1 : validPropertyName "" = false := by decide
  have h2 : validPropertyName CustomPropertyPrefix = false := by decide
  have h3 : CustomPropertyPrefix ++ "" = CustomPropertyPrefix := by decide
  refine ⟨?_, ?_, ⟨by decide, by decide⟩, ?_⟩
  · rw [validPropertyName_eq_true_iff]
    have hrune : ∀ c : Char, validPropertyRune c = true ↔
        (c.isAlpha = true ∨ c.isDigit = true ∨ c = '_') := by
      intro c
      rw [validPropertyRune_eq]
      simp [Char.isAlphanum, or_assoc]
    simp only [hrune]
    rfl
  · intro p v
    unfold registerClientProperty
    dsimp only
    split
    · exact ⟨_, rfl⟩
    · split
      · exact ⟨_, rfl⟩
      · split
        · exact ⟨_, rfl⟩
        · cases (p.wellKnownPropertyTypes.get? "").isSome
          · exact ⟨"invalid property name: " ++ (CustomPropertyPrefix ++ ""), by
              simp only [h3]
              simp [registerStaticProperty, addProviderForKey, h2]⟩
          · exact ⟨"invalid property name: " ++ "", by
              simp [registerStaticProperty, addProviderForKey, h1]⟩
  · intro p v hB hW hv
    rw [registerClientProperty_of_not_reserved p "" v hB hW hv, h3]
    simp [addProviderForKey, h2]
    rfl

/-- C23 at two names: `user_name2` is valid and `user-name` is not. -/
theorem validPropertyName_iff_witness :
    validPropertyName "user_name2" = true ∧ validPropertyName "user-name" = false ∧
    ∃ err, registerClientProperty sampleRegistry "" (GoValue.int 1) =
      (some err, sampleRegistry) :=
  ⟨by decide, by decide, (validPropertyName_iff "").2.1 sampleRegistry (GoValue.int 1)⟩

/-- C24: the environment `evaluateCondition` assembles, which it passes to `expr.Env` and to
`expr.Run`, resolves name clashes by a fixed precedence. A name that is a static helper
function is bound to the function, whatever else it is; a name that is a static constant and
not a static helper function is bound to the constant, also when it is a referenced variable
with a property value or a missing property; and a referenced variable that is neither is
bound to its property value, or to nil when the property is not found. -/
theorem evaluateConditionEnv_precedence (p : propertyRegistry) (fields : ConditionFields)
    (staticNames : List String) (name : String) :
    (∀ f, p.mapFunctions.get? name = some f →
      (evaluateConditionEnv p fields).get? name = some f) ∧
    (∀ c, p.mapConstants.get? name = some c → p.mapFunctions.get? name = none →
      (evaluateConditionEnv p fields).get? name = some c) ∧
    (name ∈ fields.Variables → p.mapConstants.get? name = none →
      p.mapFunctions.get? name = none →
      (evaluateConditionEnv p fields).get? name =
        some (if (propertyValue p name).2 = some errPropertyNotFound then GoValue.nil
          else (propertyValue p name).1)) ∧
    exprOption.Env (evaluateConditionEnv p fields) ∈
      evaluateConditionOptions p fields staticNames := by
  have henv : (evaluateConditionEnv p fields).get? name =
      match p.mapFunctions.get? name with
      | some v => some v
      | none =>
        match p.mapConstants.get? name with
        | some v => some v
        | none => (buildPropertyMapForCondition p fields).1.get? name := by
    unfold evaluateConditionEnv
    dsimp only
    rw [mapsCopy_get?, mapsCopy_get?]
    cases p.mapFunctions.get? name <;> cases p.mapConstants.get? name <;> rfl
  refine ⟨?_, ?_, ?_, ?_⟩
  · intro f hf
    rw [henv, hf]
  · intro c hc hf
    rw [henv, hf, hc]
  · intro hvar hc hf
    rw [henv, hf, hc]
    have h := (buildPropertyMapLoop_spec p fields.Variables GoMap.empty).2 name
    have hget : (buildPropertyMapForCondition p fields).1.get? name =
        if name ∈ fields.Variables then
          some (if (propertyValue p name).2 = some errPropertyNotFound then GoValue.nil
            else (propertyValue p name).1)
        else none := h
    dsimp only
    rw [hget, if_pos hvar]
  · simp [evaluateConditionOptions]

/-- C24 at a registry with clashes: the variable `now` is a property, a constant and a
function, and is bound to the function; the variable `RFC3339` is a property and a constant,
and is bound to the constant, not to the property value 5. -/
theorem evaluateConditionEnv_precedence_witness :
    (evaluateConditionEnv sampleClashRegistry sampleClashFields).get? "now" =
      some (GoValue.other reflect.Kind.Func 1) ∧
    (evaluateConditionEnv sampleClashRegistry sampleClashFields).get? "RFC3339" =
      some (GoValue.string "2006-01-02T15:04:05Z07:00") ∧
    propertyValue sampleClashRegistry "RFC3339" = (GoValue.int 5, none) ∧
    propertyValue sampleClashRegistry "now" = (GoValue.int 6, none) :=
  ⟨(evaluateConditionEnv_precedence sampleClashRegistry sampleClashFields [] "now").1
      (GoValue.other reflect.Kind.Func 1) (by decide),
    (evaluateConditionEnv_precedence sampleClashRegistry sampleClashFields [] "RFC3339").2.1
      (GoValue.string "2006-01-02T15:04:05Z07:00") (by decide) (by decide),
    by decide, by decide⟩
